import Mathlib

set_option maxRecDepth 8000

/-!
Verification of the terminal-emulation core of the robsidian repository:
the `TerminalBuffer` screen model and the ANSI performer that drives it
(`src/terminal/buffer.rs`, `src/terminal/ansi.rs`).

Machine integers are modelled by `Nat` (for `u16`/`u8` values) and `Int`
(for `i16` values), with wrap-around applied explicitly exactly where the
source performs unchecked arithmetic on those types (release-mode
semantics).  A separate `i16` checked-addition model captures the
overflow-checked (debug-profile) behaviour of the same source expression.
Rust operations that can panic on out-of-range indices (`Vec::remove`,
`Vec::insert`) are modelled in `Option`, with `none` standing for a panic;
operations the source always guards are total.
-/

/-- Wrap a natural number to the u16 range, as release-mode u16 arithmetic does. -/
def u16 (n : Nat) : Nat := n % 65536

/-- Wrapping u16 subtraction: release-mode `a - b` on u16 operands (both < 2^16). -/
def u16sub (a b : Nat) : Nat := (a + 65536 - u16 b) % 65536

/-- Wrap a natural number to the u8 range, as `as u8` casts and u8 arithmetic do. -/
def u8 (n : Nat) : Nat := n % 256

/-- The i16 value obtained by reinterpreting a u16 bit pattern (`as i16` cast). -/
def i16ofU16 (n : Nat) : Int :=
  if n % 65536 < 32768 then ((n % 65536 : Nat) : Int)
  else ((n % 65536 : Nat) : Int) - 65536

/-- Two's-complement wrap of an integer into the i16 range (release-mode i16 arithmetic). -/
def i16wrap (z : Int) : Int := (z + 32768) % 65536 - 32768

/-- Checked i16 addition: `some` of the sum when it is representable, `none`
(a panic under overflow checks, the default dev profile) otherwise. -/
def i16addChecked (a b : Int) : Option Int :=
  if -32768 ≤ a + b ∧ a + b ≤ 32767 then some (a + b) else none

/-- RGBA color with one byte per channel, mirroring egui's `Color32`. -/
structure Color32 where
  r : Nat
  g : Nat
  b : Nat
  a : Nat
deriving DecidableEq, Repr

/-- `Color32::from_rgb`: an opaque color. -/
def Color32.from_rgb (r g b : Nat) : Color32 := ⟨r, g, b, 255⟩

/-- `Color32::LIGHT_GRAY`. -/
def Color32.lightGray : Color32 := ⟨220, 220, 220, 255⟩

/-- `Color32::TRANSPARENT`. -/
def Color32.transparent : Color32 := ⟨0, 0, 0, 0⟩

/-- A single styled character in the terminal (`StyledChar` in buffer.rs). -/
structure StyledChar where
  c : Char
  fg : Color32
  bg : Color32
  bold : Bool
  italic : Bool
  underline : Bool
  strikethrough : Bool
  inverse : Bool
deriving DecidableEq, Repr

/-- `StyledChar::default()`: a space with default colors and no style flags. -/
def StyledChar.default : StyledChar :=
  ⟨' ', Color32.lightGray, Color32.transparent, false, false, false, false, false⟩

/-- A single line in the terminal buffer (`TerminalLine` in buffer.rs). -/
structure TerminalLine where
  chars : List StyledChar
  wrapped : Bool
deriving DecidableEq, Repr

/-- `TerminalLine::new(width)`: a fresh blank line of the given width. -/
def TerminalLine.new (width : Nat) : TerminalLine :=
  ⟨List.replicate width StyledChar.default, false⟩

/-- `TerminalLine::set(col, ch)`: in-bounds write, silently ignored out of bounds. -/
def TerminalLine.set (l : TerminalLine) (col : Nat) (ch : StyledChar) : TerminalLine :=
  if col < l.chars.length then { l with chars := l.chars.set col ch } else l

/-- `TerminalLine::clear()`: every cell becomes the default, wrapped flag reset. -/
def TerminalLine.clear (l : TerminalLine) : TerminalLine :=
  ⟨l.chars.map (fun _ => StyledChar.default), false⟩

/-- `TerminalLine::resize(width)` (`Vec::resize`): truncate or pad with default cells. -/
def TerminalLine.resize (l : TerminalLine) (width : Nat) : TerminalLine :=
  { l with chars := l.chars.take width ++
      List.replicate (width - l.chars.length) StyledChar.default }

/-- Set every column index in `[lo, hi)` to the default cell, as the erase loops do. -/
def TerminalLine.clearRange (l : TerminalLine) (lo hi : Nat) : TerminalLine :=
  (List.range' lo (hi - lo)).foldl (fun acc i => acc.set i StyledChar.default) l

/-- Cursor position (`CursorPos` in buffer.rs); both coordinates are u16 in the source. -/
structure CursorPos where
  row : Nat
  col : Nat
deriving DecidableEq, Repr

/-- `CursorPos::default()`. -/
def CursorPos.default : CursorPos := ⟨0, 0⟩

/-- The screen buffer (`TerminalBuffer` in buffer.rs).  `size` is `(cols, rows)`
as in the source; `scroll_region` is `(top, bottom)`, both inclusive. -/
structure TerminalBuffer where
  lines : List TerminalLine
  scrollback : List TerminalLine
  cursor : CursorPos
  saved_cursor : Option CursorPos
  scroll_region : Nat × Nat
  size : Nat × Nat
  current_style : StyledChar
  max_scrollback : Nat
deriving DecidableEq, Repr

/-- `TerminalBuffer::new(cols, rows)`. -/
def TerminalBuffer.new (cols rows : Nat) : TerminalBuffer where
  lines := List.replicate rows (TerminalLine.new cols)
  scrollback := []
  cursor := CursorPos.default
  saved_cursor := none
  scroll_region := (0, rows - 1)
  size := (cols, rows)
  current_style := StyledChar.default
  max_scrollback := 10000

/-- `set_cursor(col, row)`: clamp both coordinates into the grid (`saturating_sub`
is Nat subtraction). -/
def TerminalBuffer.set_cursor (b : TerminalBuffer) (col row : Nat) : TerminalBuffer :=
  { b with cursor := ⟨min row (b.size.2 - 1), min col (b.size.1 - 1)⟩ }

/-- `move_cursor(dcol, drow)` with release-mode (wrapping) i16 arithmetic:
`(cursor as i16 + d).max(0) as u16`, then clamped by `set_cursor`. -/
def TerminalBuffer.move_cursor (b : TerminalBuffer) (dcol drow : Int) : TerminalBuffer :=
  let new_col := (max (i16wrap (i16ofU16 b.cursor.col + dcol)) 0).toNat
  let new_row := (max (i16wrap (i16ofU16 b.cursor.row + drow)) 0).toNat
  b.set_cursor new_col new_row

/-- `move_cursor` under overflow checks (debug profile): the two i16 additions
panic when the mathematical sum leaves the i16 range. -/
def TerminalBuffer.move_cursor_checked (b : TerminalBuffer) (dcol drow : Int) :
    Option TerminalBuffer :=
  (i16addChecked (i16ofU16 b.cursor.col) dcol).bind fun nc =>
    (i16addChecked (i16ofU16 b.cursor.row) drow).map fun nr =>
      b.set_cursor (max nc 0).toNat (max nr 0).toNat

/-- `save_cursor()`. -/
def TerminalBuffer.save_cursor (b : TerminalBuffer) : TerminalBuffer :=
  { b with saved_cursor := some b.cursor }

/-- `restore_cursor()`: restore the saved position if one exists, else do nothing. -/
def TerminalBuffer.restore_cursor (b : TerminalBuffer) : TerminalBuffer :=
  match b.saved_cursor with
  | some pos => { b with cursor := pos }
  | none => b

/-- One iteration of the `scroll_up` loop: archive the region's top line into
scrollback (evicting the oldest if over capacity) and insert a blank line at
the region's bottom. -/
def TerminalBuffer.scroll_up_step (b : TerminalBuffer) : TerminalBuffer :=
  let top := b.scroll_region.1
  let bottom := b.scroll_region.2
  if h : top < b.lines.length then
    let line := b.lines.get ⟨top, h⟩
    let lines1 := b.lines.eraseIdx top
    let sb1 := b.scrollback ++ [line]
    let sb2 := if sb1.length > b.max_scrollback then sb1.drop 1 else sb1
    let lines2 := lines1.insertIdx (min bottom lines1.length) (TerminalLine.new b.size.1)
    { b with lines := lines2, scrollback := sb2 }
  else b

/-- `scroll_up(n)`. -/
def TerminalBuffer.scroll_up (b : TerminalBuffer) (n : Nat) : TerminalBuffer :=
  match n with
  | 0 => b
  | m + 1 => (b.scroll_up_step).scroll_up m

/-- One iteration of the `scroll_down` loop.  The unguarded `Vec::insert(top, ..)`
can panic (modelled by `none`) if the region top exceeds the shrunken length. -/
def TerminalBuffer.scroll_down_step (b : TerminalBuffer) : Option TerminalBuffer :=
  let top := b.scroll_region.1
  let bottom := b.scroll_region.2
  if bottom < b.lines.length then
    let lines1 := b.lines.eraseIdx bottom
    if top ≤ lines1.length then
      some { b with lines := lines1.insertIdx top (TerminalLine.new b.size.1) }
    else none
  else some b

/-- `scroll_down(n)`. -/
def TerminalBuffer.scroll_down (b : TerminalBuffer) (n : Nat) : Option TerminalBuffer :=
  match n with
  | 0 => some b
  | m + 1 => (b.scroll_down_step).bind fun b1 => b1.scroll_down m

/-- `set_scroll_region(top, bottom)`: clamp each bound to the last row, independently. -/
def TerminalBuffer.set_scroll_region (b : TerminalBuffer) (top bottom : Nat) : TerminalBuffer :=
  { b with scroll_region := (min top (b.size.2 - 1), min bottom (b.size.2 - 1)) }

/-- `reset_scroll_region()`. -/
def TerminalBuffer.reset_scroll_region (b : TerminalBuffer) : TerminalBuffer :=
  { b with scroll_region := (0, b.size.2 - 1) }

/-- The wrap prelude of `put_char`: on column overflow move to column 0 of the
next row, scrolling by one if that crosses the bottom of the screen. -/
def TerminalBuffer.put_wrap (b : TerminalBuffer) : TerminalBuffer :=
  if b.cursor.col ≥ b.size.1 then
    let b1 := { b with cursor := (⟨u16 (b.cursor.row + 1), 0⟩ : CursorPos) }
    if b1.cursor.row ≥ b1.size.2 then
      let b2 := b1.scroll_up 1
      { b2 with cursor := (⟨u16sub b2.size.2 1, b2.cursor.col⟩ : CursorPos) }
    else b1
  else b

/-- The write part of `put_char`: store the styled character at the cursor when
the cursor row is inside the grid. -/
def TerminalBuffer.put_at (b : TerminalBuffer) (c : Char) : TerminalBuffer :=
  if h : b.cursor.row < b.lines.length then
    { b with lines := (b.lines.set b.cursor.row
        ((b.lines.get ⟨b.cursor.row, h⟩).set b.cursor.col { b.current_style with c := c })) }
  else b

/-- `put_char(c)`: wrap if pending, write with the current style, advance the column. -/
def TerminalBuffer.put_char (b : TerminalBuffer) (c : Char) : TerminalBuffer :=
  let b1 := (b.put_wrap).put_at c
  { b1 with cursor := (⟨b1.cursor.row, u16 (b1.cursor.col + 1)⟩ : CursorPos) }

/-- `newline()`: advance the row, scrolling the region up by one when the cursor
crosses the region bottom. -/
def TerminalBuffer.newline (b : TerminalBuffer) : TerminalBuffer :=
  let b1 := { b with cursor := (⟨u16 (b.cursor.row + 1), 0⟩ : CursorPos) }
  if b1.cursor.row > b1.scroll_region.2 then
    let b2 := b1.scroll_up 1
    { b2 with cursor := (⟨b2.scroll_region.2, b2.cursor.col⟩ : CursorPos) }
  else b1

/-- `carriage_return()`. -/
def TerminalBuffer.carriage_return (b : TerminalBuffer) : TerminalBuffer :=
  { b with cursor := (⟨b.cursor.row, 0⟩ : CursorPos) }

/-- `backspace()`: move one column left, stopping at column 0. -/
def TerminalBuffer.backspace (b : TerminalBuffer) : TerminalBuffer :=
  if b.cursor.col > 0 then { b with cursor := (⟨b.cursor.row, b.cursor.col - 1⟩ : CursorPos) }
  else b

/-- `tab()`: advance to the next multiple-of-8 column, clamped to the last column
(the source computes `size.0 - 1` with unchecked u16 subtraction). -/
def TerminalBuffer.tab (b : TerminalBuffer) : TerminalBuffer :=
  let next_tab := u16 ((b.cursor.col / 8 + 1) * 8)
  { b with cursor := (⟨b.cursor.row, min next_tab (u16sub b.size.1 1)⟩ : CursorPos) }

/-- `clear_to_eol()`. -/
def TerminalBuffer.clear_to_eol (b : TerminalBuffer) : TerminalBuffer :=
  if h : b.cursor.row < b.lines.length then
    { b with lines := (b.lines.set b.cursor.row
        ((b.lines.get ⟨b.cursor.row, h⟩).clearRange b.cursor.col b.size.1)) }
  else b

/-- `clear_to_bol()`: clears columns `0 ..= cursor.col`. -/
def TerminalBuffer.clear_to_bol (b : TerminalBuffer) : TerminalBuffer :=
  if h : b.cursor.row < b.lines.length then
    { b with lines := (b.lines.set b.cursor.row
        ((b.lines.get ⟨b.cursor.row, h⟩).clearRange 0 (b.cursor.col + 1))) }
  else b

/-- `clear_line()`. -/
def TerminalBuffer.clear_line (b : TerminalBuffer) : TerminalBuffer :=
  if h : b.cursor.row < b.lines.length then
    { b with lines := (b.lines.set b.cursor.row ((b.lines.get ⟨b.cursor.row, h⟩).clear)) }
  else b

/-- Clear each row index drawn from `idxs`, as the screen-erase loops do. -/
def clearRows (lines : List TerminalLine) (idxs : List Nat) : List TerminalLine :=
  idxs.foldl (fun ls i => ls.set i ((ls.getD i (TerminalLine.new 0)).clear)) lines

/-- `clear_to_eos()`: clear to end of line, then every full row below the cursor. -/
def TerminalBuffer.clear_to_eos (b : TerminalBuffer) : TerminalBuffer :=
  let b1 := b.clear_to_eol
  { b1 with lines := (clearRows b1.lines
      (List.range' (b1.cursor.row + 1) (b1.lines.length - (b1.cursor.row + 1)))) }

/-- `clear_to_bos()`: clear to beginning of line, then every full row above the cursor. -/
def TerminalBuffer.clear_to_bos (b : TerminalBuffer) : TerminalBuffer :=
  let b1 := b.clear_to_bol
  { b1 with lines := (clearRows b1.lines (List.range' 0 b1.cursor.row)) }

/-- `clear_screen()`. -/
def TerminalBuffer.clear_screen (b : TerminalBuffer) : TerminalBuffer :=
  { b with lines := b.lines.map TerminalLine.clear }

/-- `reset_style()`. -/
def TerminalBuffer.reset_style (b : TerminalBuffer) : TerminalBuffer :=
  { b with current_style := StyledChar.default }

/-- `resize(cols, rows)`: resize every line, then push blank lines or pop from the
bottom to the new row count; reset the scroll region and clamp the cursor. -/
def TerminalBuffer.resize (b : TerminalBuffer) (cols rows : Nat) : TerminalBuffer :=
  let lines1 := b.lines.map (fun l => l.resize cols)
  let lines2 := lines1.take rows ++ List.replicate (rows - lines1.length) (TerminalLine.new cols)
  { b with lines := lines2,
           size := (cols, rows),
           scroll_region := (0, rows - 1),
           cursor := ⟨min b.cursor.row (rows - 1), min b.cursor.col (cols - 1)⟩ }

/-- `erase_chars(n)`: default-fill columns `cursor.col .. min(cursor.col + n, cols)`. -/
def TerminalBuffer.erase_chars (b : TerminalBuffer) (n : Nat) : TerminalBuffer :=
  if h : b.cursor.row < b.lines.length then
    { b with lines := (b.lines.set b.cursor.row
        ((b.lines.get ⟨b.cursor.row, h⟩).clearRange b.cursor.col (min (b.cursor.col + n) b.size.1))) }
  else b

/-- One iteration of the `insert_lines` loop; the `Vec::insert(row, ..)` is modelled
in `Option` (`none` = panic). -/
def TerminalBuffer.insert_lines_step (b : TerminalBuffer) : Option TerminalBuffer :=
  let row := b.cursor.row
  let bottom := b.scroll_region.2
  if bottom < b.lines.length ∧ row ≤ bottom then
    let lines1 := b.lines.eraseIdx bottom
    if row ≤ lines1.length then
      some { b with lines := lines1.insertIdx row (TerminalLine.new b.size.1) }
    else none
  else some b

/-- `insert_lines(n)`. -/
def TerminalBuffer.insert_lines (b : TerminalBuffer) (n : Nat) : Option TerminalBuffer :=
  match n with
  | 0 => some b
  | m + 1 => (b.insert_lines_step).bind fun b1 => b1.insert_lines m

/-- One iteration of the `delete_lines` loop; the `Vec::insert(bottom, ..)` is
modelled in `Option` (`none` = panic). -/
def TerminalBuffer.delete_lines_step (b : TerminalBuffer) : Option TerminalBuffer :=
  let row := b.cursor.row
  let bottom := b.scroll_region.2
  if row < b.lines.length ∧ row ≤ bottom then
    let lines1 := b.lines.eraseIdx row
    if bottom ≤ lines1.length then
      some { b with lines := lines1.insertIdx bottom (TerminalLine.new b.size.1) }
    else none
  else some b

/-- `delete_lines(n)`. -/
def TerminalBuffer.delete_lines (b : TerminalBuffer) (n : Nat) : Option TerminalBuffer :=
  match n with
  | 0 => some b
  | m + 1 => (b.delete_lines_step).bind fun b1 => b1.delete_lines m

/-- The 16-entry ANSI color table (`ANSI_COLORS` in buffer.rs). -/
def ANSI_COLORS : List Color32 :=
  [Color32.from_rgb 0 0 0, Color32.from_rgb 205 49 49, Color32.from_rgb 13 188 121,
   Color32.from_rgb 229 229 16, Color32.from_rgb 36 114 200, Color32.from_rgb 188 63 188,
   Color32.from_rgb 17 168 205, Color32.from_rgb 229 229 229,
   Color32.from_rgb 102 102 102, Color32.from_rgb 241 76 76, Color32.from_rgb 35 209 139,
   Color32.from_rgb 245 245 67, Color32.from_rgb 59 142 234, Color32.from_rgb 214 112 214,
   Color32.from_rgb 41 184 219, Color32.from_rgb 255 255 255]

/-- `color_256_to_rgb(index)` with u8 arithmetic made explicit. -/
def color_256_to_rgb (index : Nat) : Color32 :=
  if index < 16 then
    ANSI_COLORS.getD index (Color32.from_rgb 0 0 0)
  else if index < 232 then
    let i := u8 (index - 16)
    let r := i / 36 % 6
    let g := i / 6 % 6
    let bl := i % 6
    let to_rgb := fun c => if c = 0 then 0 else u8 (55 + u8 (c * 40))
    Color32.from_rgb (to_rgb r) (to_rgb g) (to_rgb bl)
  else
    let gray := u8 (8 + u8 (u8 (index - 232) * 10))
    Color32.from_rgb gray gray gray

/-- `parse_extended_color(params, i)`: 256-color (`38;5;n`) or RGB (`38;2;r;g;b`)
payload; returns the parsed color (if any) together with the updated index. -/
def parse_extended_color (params : List Nat) (i : Nat) : Option Color32 × Nat :=
  if i + 1 ≥ params.length then (none, i)
  else if params.getD (i + 1) 0 = 5 then
    if i + 2 < params.length then (some (color_256_to_rgb (u8 (params.getD (i + 2) 0))), i + 2)
    else (none, i)
  else if params.getD (i + 1) 0 = 2 then
    if i + 4 < params.length then
      (some (Color32.from_rgb (u8 (params.getD (i + 2) 0)) (u8 (params.getD (i + 3) 0))
        (u8 (params.getD (i + 4) 0))), i + 4)
    else (none, i)
  else (none, i)

/-- One arm of the SGR `match`: the new pending style and the updated index.
The source loop reads and writes only `current_style`, so it is modelled as a
pure function on the style. -/
def sgr_apply (cs : StyledChar) (params : List Nat) (i : Nat) : StyledChar × Nat :=
  let param := params.getD i 0
  if param = 0 then (StyledChar.default, i)
  else if param = 1 then ({ cs with bold := true }, i)
  else if param = 2 then ({ cs with bold := false }, i)
  else if param = 3 then ({ cs with italic := true }, i)
  else if param = 4 then ({ cs with underline := true }, i)
  else if param = 7 then ({ cs with inverse := true }, i)
  else if param = 9 then ({ cs with strikethrough := true }, i)
  else if param = 22 then ({ cs with bold := false }, i)
  else if param = 23 then ({ cs with italic := false }, i)
  else if param = 24 then ({ cs with underline := false }, i)
  else if param = 27 then ({ cs with inverse := false }, i)
  else if param = 29 then ({ cs with strikethrough := false }, i)
  else if 30 ≤ param ∧ param ≤ 37 then
    ({ cs with fg := ANSI_COLORS.getD (param - 30) (Color32.from_rgb 0 0 0) }, i)
  else if param = 38 then
    match parse_extended_color params i with
    | (some color, i2) => ({ cs with fg := color }, i2)
    | (none, i2) => (cs, i2)
  else if param = 39 then ({ cs with fg := Color32.lightGray }, i)
  else if 40 ≤ param ∧ param ≤ 47 then
    ({ cs with bg := ANSI_COLORS.getD (param - 40) (Color32.from_rgb 0 0 0) }, i)
  else if param = 48 then
    match parse_extended_color params i with
    | (some color, i2) => ({ cs with bg := color }, i2)
    | (none, i2) => (cs, i2)
  else if param = 49 then ({ cs with bg := Color32.transparent }, i)
  else if 90 ≤ param ∧ param ≤ 97 then
    ({ cs with fg := ANSI_COLORS.getD (param - 90 + 8) (Color32.from_rgb 0 0 0) }, i)
  else if 100 ≤ param ∧ param ≤ 107 then
    ({ cs with bg := ANSI_COLORS.getD (param - 100 + 8) (Color32.from_rgb 0 0 0) }, i)
  else (cs, i)

/-- The SGR `while i < params.len()` loop.  The index strictly increases each
iteration, so `params.length` steps of fuel always outlast the loop. -/
def sgr_go (cs : StyledChar) (params : List Nat) (i fuel : Nat) : StyledChar :=
  match fuel with
  | 0 => cs
  | fuel1 + 1 =>
    if i < params.length then
      let step := sgr_apply cs params i
      sgr_go step.1 params (step.2 + 1) fuel1
    else cs

/-- `handle_sgr(params)`: empty parameter list is treated as a single `0`. -/
def TerminalBuffer.handle_sgr (b : TerminalBuffer) (params : List Nat) : TerminalBuffer :=
  let ps := if params.isEmpty then [0] else params
  { b with current_style := sgr_go b.current_style ps 0 ps.length }

/-- `csi_dispatch`.  The source receives `Vec<u16>` parameters; the `Nat` model
reduces each incoming value mod 2^16 to express that typing. -/
def TerminalBuffer.csi_dispatch (b : TerminalBuffer) (rawParams : List Nat) (action : Char) :
    Option TerminalBuffer :=
  let params := rawParams.map u16
  if action = 'A' then
    some (b.move_cursor 0 (i16wrap (-(i16ofU16 (max (params.headD 1) 1)))))
  else if action = 'B' then
    some (b.move_cursor 0 (i16ofU16 (max (params.headD 1) 1)))
  else if action = 'C' then
    some (b.move_cursor (i16ofU16 (max (params.headD 1) 1)) 0)
  else if action = 'D' then
    some (b.move_cursor (i16wrap (-(i16ofU16 (max (params.headD 1) 1)))) 0)
  else if action = 'E' then
    some ((b.move_cursor 0 (i16ofU16 (max (params.headD 1) 1))).carriage_return)
  else if action = 'F' then
    some ((b.move_cursor 0 (i16wrap (-(i16ofU16 (max (params.headD 1) 1))))).carriage_return)
  else if action = 'G' then
    some (b.set_cursor (params.headD 1 - 1) b.cursor.row)
  else if action = 'H' ∨ action = 'f' then
    some (b.set_cursor (params.getD 1 1 - 1) (params.headD 1 - 1))
  else if action = 'J' then
    some (if params.headD 0 = 0 then b.clear_to_eos
          else if params.headD 0 = 1 then b.clear_to_bos
          else if params.headD 0 = 2 ∨ params.headD 0 = 3 then b.clear_screen
          else b)
  else if action = 'K' then
    some (if params.headD 0 = 0 then b.clear_to_eol
          else if params.headD 0 = 1 then b.clear_to_bol
          else if params.headD 0 = 2 then b.clear_line
          else b)
  else if action = 'L' then b.insert_lines (max (params.headD 1) 1)
  else if action = 'M' then b.delete_lines (max (params.headD 1) 1)
  else if action = 'X' then some (b.erase_chars (max (params.headD 1) 1))
  else if action = 'S' then some (b.scroll_up (max (params.headD 1) 1))
  else if action = 'T' then b.scroll_down (max (params.headD 1) 1)
  else if action = 'm' then some (b.handle_sgr params)
  else if action = 's' then some b.save_cursor
  else if action = 'u' then some b.restore_cursor
  else if action = 'r' then
    some (b.set_scroll_region (params.headD 1 - 1) (params.getD 1 b.size.2 - 1))
  else some b

/-- `esc_dispatch` on the final byte (55 = `7`, 56 = `8`, 68 = `D`, 69 = `E`,
77 = `M`, 99 = `c`). -/
def TerminalBuffer.esc_dispatch (b : TerminalBuffer) (byte : Nat) : Option TerminalBuffer :=
  if byte = 55 then some b.save_cursor
  else if byte = 56 then some b.restore_cursor
  else if byte = 68 then some b.newline
  else if byte = 69 then some b.newline.carriage_return
  else if byte = 77 then
    if b.cursor.row = 0 then b.scroll_down 1
    else some (b.move_cursor 0 (-1))
  else if byte = 99 then
    some ((((b.clear_screen).set_cursor 0 0).reset_style).reset_scroll_region)
  else some b

/-- `execute` on a C0 control byte (bell ignored, 8 = BS, 9 = HT, 10 = LF, 13 = CR). -/
def TerminalBuffer.execute (b : TerminalBuffer) (byte : Nat) : TerminalBuffer :=
  if byte = 8 then b.backspace
  else if byte = 9 then b.tab
  else if byte = 10 then b.newline
  else if byte = 13 then b.carriage_return
  else b

/-- One semantic operation the vte state machine can dispatch to the performer.
This over-approximates the real driver: any action character, any final byte
and any u16 parameter list may arrive. -/
inductive POp where
  | print (c : Char)
  | exec (byte : Nat)
  | csi (params : List Nat) (action : Char)
  | esc (byte : Nat)
deriving DecidableEq, Repr

/-- Apply one performer operation; `none` models a Rust panic. -/
def applyOp (op : POp) (b : TerminalBuffer) : Option TerminalBuffer :=
  match op with
  | .print c => some (b.put_char c)
  | .exec byte => some (b.execute byte)
  | .csi params action => b.csi_dispatch params action
  | .esc byte => b.esc_dispatch byte

/-- Apply a whole stream of performer operations. -/
def applyOps (ops : List POp) (b : TerminalBuffer) : Option TerminalBuffer :=
  match ops with
  | [] => some b
  | op :: rest => (applyOp op b).bind (applyOps rest)

/-- The cursor-independent part of the state invariant: sane size, a
rectangular grid of the declared size, scroll-region rows inside the grid,
bounded scrollback, and any saved cursor within cursor bounds. -/
def GridValid (b : TerminalBuffer) : Prop :=
  1 ≤ b.size.1 ∧ b.size.1 < 65536 ∧ 1 ≤ b.size.2 ∧ b.size.2 < 65536 ∧
  b.lines.length = b.size.2 ∧
  (∀ l ∈ b.lines, l.chars.length = b.size.1) ∧
  b.scroll_region.1 < b.size.2 ∧ b.scroll_region.2 < b.size.2 ∧
  b.scrollback.length ≤ b.max_scrollback ∧
  (b.saved_cursor.getD CursorPos.default).row < b.size.2 ∧
  (b.saved_cursor.getD CursorPos.default).col ≤ b.size.1

/-- The full state invariant: the cursor row is inside the grid and the cursor
column is at most the column count (it rests exactly one past the last column
in the pending-wrap state). -/
def Valid (b : TerminalBuffer) : Prop :=
  GridValid b ∧ b.cursor.row < b.size.2 ∧ b.cursor.col ≤ b.size.1

instance (b : TerminalBuffer) : Decidable (GridValid b) := by
  unfold GridValid
  exact inferInstance

instance (b : TerminalBuffer) : Decidable (Valid b) := by
  unfold Valid
  exact inferInstance

theorem u16_eq_of_lt {n : Nat} (h : n < 65536) : u16 n = n := Nat.mod_eq_of_lt h

theorem u16sub_one {n : Nat} (h1 : 1 ≤ n) (h2 : n < 65536) : u16sub n 1 = n - 1 := by
  unfold u16sub u16
  omega

theorem TerminalLine.length_new (w : Nat) : (TerminalLine.new w).chars.length = w := by
  simp [TerminalLine.new]

theorem TerminalLine.length_set_eq (l : TerminalLine) (col : Nat) (ch : StyledChar) :
    (l.set col ch).chars.length = l.chars.length := by
  unfold TerminalLine.set
  split <;> simp

theorem TerminalLine.length_clear (l : TerminalLine) :
    (l.clear).chars.length = l.chars.length := by
  simp [TerminalLine.clear]

theorem TerminalLine.length_resize_eq (l : TerminalLine) (w : Nat) :
    (l.resize w).chars.length = w := by
  simp [TerminalLine.resize]
  omega

theorem TerminalLine.length_clearRange (l : TerminalLine) (lo hi : Nat) :
    (l.clearRange lo hi).chars.length = l.chars.length := by
  unfold TerminalLine.clearRange
  generalize List.range' lo (hi - lo) = idxs
  induction idxs generalizing l with
  | nil => rfl
  | cons i is ih =>
    rw [List.foldl_cons, ih]
    exact l.length_set_eq i StyledChar.default

theorem length_clearRows (lines : List TerminalLine) (idxs : List Nat) :
    (clearRows lines idxs).length = lines.length := by
  unfold clearRows
  induction idxs generalizing lines with
  | nil => rfl
  | cons i is ih =>
    rw [List.foldl_cons, ih, List.length_set]

theorem mem_clearRows {w : Nat} (lines : List TerminalLine) (idxs : List Nat)
    (h : ∀ l ∈ lines, l.chars.length = w) :
    ∀ l ∈ clearRows lines idxs, l.chars.length = w := by
  unfold clearRows
  induction idxs generalizing lines with
  | nil => exact h
  | cons i is ih =>
    intro l hl
    rw [List.foldl_cons] at hl
    refine ih _ ?_ l hl
    intro l2 hl2
    rcases Nat.lt_or_ge i lines.length with hi | hi
    · rcases List.mem_or_eq_of_mem_set hl2 with h2 | h2
      · exact h _ h2
      · subst h2
        rw [TerminalLine.length_clear, List.getD_eq_getElem _ _ hi]
        exact h _ (List.getElem_mem hi)
    · rw [List.set_eq_of_length_le hi] at hl2
      exact h _ hl2

theorem valid_new {cols rows : Nat} (h1 : 1 ≤ cols) (h2 : cols < 65536)
    (h3 : 1 ≤ rows) (h4 : rows < 65536) : Valid (TerminalBuffer.new cols rows) := by
  unfold Valid GridValid TerminalBuffer.new
  refine ⟨⟨h1, h2, h3, h4, by simp, ?_, ?_, ?_, ?_, ?_, ?_⟩, ?_, ?_⟩ <;>
    simp [CursorPos.default, TerminalLine.new] <;> omega

theorem valid_set_cursor (b : TerminalBuffer) (hg : GridValid b) (col row : Nat) :
    Valid (b.set_cursor col row) := by
  obtain ⟨c1, c2, r1, r2, hlen, hmem, ht, hb, hsb, hs1, hs2⟩ := hg
  unfold TerminalBuffer.set_cursor
  exact ⟨⟨c1, c2, r1, r2, hlen, hmem, ht, hb, hsb, hs1, hs2⟩,
    by simp <;> omega, by simp <;> omega⟩

theorem set_cursor_fields (b : TerminalBuffer) (col row : Nat) :
    (b.set_cursor col row).lines = b.lines ∧
    (b.set_cursor col row).scrollback = b.scrollback ∧
    (b.set_cursor col row).size = b.size ∧
    (b.set_cursor col row).scroll_region = b.scroll_region ∧
    (b.set_cursor col row).saved_cursor = b.saved_cursor ∧
    (b.set_cursor col row).current_style = b.current_style ∧
    (b.set_cursor col row).max_scrollback = b.max_scrollback := by
  unfold TerminalBuffer.set_cursor
  exact ⟨rfl, rfl, rfl, rfl, rfl, rfl, rfl⟩

theorem gridValid_of_valid {b : TerminalBuffer} (hv : Valid b) : GridValid b := hv.1

theorem valid_move_cursor (b : TerminalBuffer) (hg : GridValid b) (dcol drow : Int) :
    Valid (b.move_cursor dcol drow) :=
  valid_set_cursor b hg _ _

theorem valid_carriage_return (b : TerminalBuffer) (hv : Valid b) :
    Valid b.carriage_return := by
  obtain ⟨hg, hrow, _⟩ := hv
  unfold TerminalBuffer.carriage_return
  exact ⟨hg, hrow, by simp⟩

theorem valid_backspace (b : TerminalBuffer) (hv : Valid b) :
    Valid b.backspace := by
  obtain ⟨hg, hrow, hcol⟩ := hv
  unfold TerminalBuffer.backspace
  split
  · exact ⟨hg, hrow, by simp <;> omega⟩
  · exact ⟨hg, hrow, hcol⟩

theorem valid_tab (b : TerminalBuffer) (hv : Valid b) : Valid b.tab := by
  obtain ⟨hg, hrow, hcol⟩ := hv
  have c1 := hg.1
  have c2 := hg.2.1
  unfold TerminalBuffer.tab
  refine ⟨hg, hrow, ?_⟩
  simp only
  rw [u16sub_one c1 c2]
  omega

theorem valid_save_cursor (b : TerminalBuffer) (hv : Valid b) :
    Valid b.save_cursor := by
  obtain ⟨⟨c1, c2, r1, r2, hlen, hmem, ht, hb, hsb, hs1, hs2⟩, hrow, hcol⟩ := hv
  unfold TerminalBuffer.save_cursor
  exact ⟨⟨c1, c2, r1, r2, hlen, hmem, ht, hb, hsb, by simpa using hrow, by simpa using hcol⟩,
    hrow, hcol⟩

theorem valid_restore_cursor (b : TerminalBuffer) (hv : Valid b) :
    Valid b.restore_cursor := by
  obtain ⟨⟨c1, c2, r1, r2, hlen, hmem, ht, hb, hsb, hs1, hs2⟩, hrow, hcol⟩ := hv
  unfold TerminalBuffer.restore_cursor
  cases hs : b.saved_cursor with
  | none => exact ⟨⟨c1, c2, r1, r2, hlen, hmem, ht, hb, hsb, hs1, hs2⟩, hrow, hcol⟩
  | some p =>
    rw [hs] at hs1 hs2
    simp only [Option.getD_some] at hs1 hs2
    exact ⟨⟨c1, c2, r1, r2, hlen, hmem, ht, hb, hsb, by simp [hs, hs1], by simp [hs, hs2]⟩,
      hs1, hs2⟩

theorem valid_set_scroll_region (b : TerminalBuffer) (hv : Valid b) (top bottom : Nat) :
    Valid (b.set_scroll_region top bottom) := by
  obtain ⟨⟨c1, c2, r1, r2, hlen, hmem, _, _, hsb, hs1, hs2⟩, hrow, hcol⟩ := hv
  unfold TerminalBuffer.set_scroll_region
  exact ⟨⟨c1, c2, r1, r2, hlen, hmem, by simp <;> omega, by simp <;> omega, hsb, hs1, hs2⟩,
    hrow, hcol⟩

theorem valid_reset_scroll_region (b : TerminalBuffer) (hv : Valid b) :
    Valid b.reset_scroll_region := by
  obtain ⟨⟨c1, c2, r1, r2, hlen, hmem, _, _, hsb, hs1, hs2⟩, hrow, hcol⟩ := hv
  unfold TerminalBuffer.reset_scroll_region
  exact ⟨⟨c1, c2, r1, r2, hlen, hmem, by simp <;> omega, by simp <;> omega, hsb, hs1, hs2⟩,
    hrow, hcol⟩

theorem scroll_up_step_facts (b : TerminalBuffer) (hg : GridValid b) :
    GridValid b.scroll_up_step ∧
    b.scroll_up_step.cursor = b.cursor ∧
    b.scroll_up_step.size = b.size ∧
    b.scroll_up_step.scroll_region = b.scroll_region ∧
    b.scroll_up_step.saved_cursor = b.saved_cursor ∧
    b.scroll_up_step.current_style = b.current_style ∧
    b.scroll_up_step.max_scrollback = b.max_scrollback := by
  obtain ⟨c1, c2, r1, r2, hlen, hmem, ht, hb, hsb, hs1, hs2⟩ := hg
  unfold TerminalBuffer.scroll_up_step
  have htop : b.scroll_region.1 < b.lines.length := by omega
  rw [dif_pos htop]
  dsimp only
  have hlen1 : (b.lines.eraseIdx b.scroll_region.1).length = b.lines.length - 1 := by
    rw [List.length_eraseIdx, if_pos htop]
  have hins : min b.scroll_region.2 (b.lines.eraseIdx b.scroll_region.1).length ≤
      (b.lines.eraseIdx b.scroll_region.1).length := Nat.min_le_right _ _
  refine ⟨⟨c1, c2, r1, r2, ?_, ?_, ht, hb, ?_, hs1, hs2⟩, rfl, rfl, rfl, rfl, rfl, rfl⟩
  · dsimp only
    rw [List.length_insertIdx _ _ hins, hlen1]
    omega
  · intro l hl
    rw [List.mem_insertIdx hins] at hl
    rcases hl with hl | hl
    · rw [hl]
      exact TerminalLine.length_new _
    · exact hmem _ (List.Sublist.mem hl (List.eraseIdx_sublist b.lines _))
  · split
    · simp only [List.length_drop, List.length_append, List.length_cons, List.length_nil]
      omega
    · rename_i hle
      simp only [gt_iff_lt, not_lt, List.length_append, List.length_cons, List.length_nil] at hle ⊢
      omega

theorem scroll_up_facts (b : TerminalBuffer) (hg : GridValid b) (n : Nat) :
    GridValid (b.scroll_up n) ∧
    (b.scroll_up n).cursor = b.cursor ∧
    (b.scroll_up n).size = b.size ∧
    (b.scroll_up n).scroll_region = b.scroll_region ∧
    (b.scroll_up n).saved_cursor = b.saved_cursor ∧
    (b.scroll_up n).current_style = b.current_style ∧
    (b.scroll_up n).max_scrollback = b.max_scrollback := by
  induction n generalizing b with
  | zero => exact ⟨hg, rfl, rfl, rfl, rfl, rfl, rfl⟩
  | succ m ih =>
    obtain ⟨sv, sc, ss, sr, ssa, sst, sm⟩ := scroll_up_step_facts b hg
    obtain ⟨iv, ic, is, ir, isa, ist, im⟩ := ih b.scroll_up_step sv
    exact ⟨iv, ic.trans sc, is.trans ss, ir.trans sr, isa.trans ssa, ist.trans sst, im.trans sm⟩

theorem scroll_down_step_facts (b : TerminalBuffer) (hg : GridValid b) :
    ∃ b2, b.scroll_down_step = some b2 ∧ GridValid b2 ∧
      b2.cursor = b.cursor ∧ b2.size = b.size ∧ b2.scroll_region = b.scroll_region ∧
      b2.saved_cursor = b.saved_cursor ∧ b2.current_style = b.current_style ∧
      b2.max_scrollback = b.max_scrollback ∧ b2.scrollback = b.scrollback := by
  obtain ⟨c1, c2, r1, r2, hlen, hmem, ht, hb, hsb, hs1, hs2⟩ := hg
  unfold TerminalBuffer.scroll_down_step
  dsimp only
  by_cases hbot : b.scroll_region.2 < b.lines.length
  · rw [if_pos hbot]
    have hlen1 : (b.lines.eraseIdx b.scroll_region.2).length = b.lines.length - 1 := by
      rw [List.length_eraseIdx, if_pos hbot]
    have htop : b.scroll_region.1 ≤ (b.lines.eraseIdx b.scroll_region.2).length := by omega
    rw [if_pos htop]
    refine ⟨_, rfl, ⟨c1, c2, r1, r2, ?_, ?_, ht, hb, hsb, hs1, hs2⟩,
      rfl, rfl, rfl, rfl, rfl, rfl, rfl⟩
    · dsimp only
      rw [List.length_insertIdx _ _ htop, hlen1]
      omega
    · intro l hl
      dsimp only at hl
      rw [List.mem_insertIdx htop] at hl
      rcases hl with hl | hl
      · rw [hl]
        exact TerminalLine.length_new _
      · exact hmem _ (List.Sublist.mem hl (List.eraseIdx_sublist b.lines _))
  · rw [if_neg hbot]
    exact ⟨b, rfl, ⟨c1, c2, r1, r2, hlen, hmem, ht, hb, hsb, hs1, hs2⟩,
      rfl, rfl, rfl, rfl, rfl, rfl, rfl⟩

theorem scroll_down_facts (b : TerminalBuffer) (hg : GridValid b) (n : Nat) :
    ∃ b2, b.scroll_down n = some b2 ∧ GridValid b2 ∧
      b2.cursor = b.cursor ∧ b2.size = b.size ∧ b2.scroll_region = b.scroll_region ∧
      b2.saved_cursor = b.saved_cursor ∧ b2.current_style = b.current_style ∧
      b2.max_scrollback = b.max_scrollback ∧ b2.scrollback = b.scrollback := by
  induction n generalizing b with
  | zero => exact ⟨b, rfl, hg, rfl, rfl, rfl, rfl, rfl, rfl, rfl⟩
  | succ m ih =>
    obtain ⟨b1, he, sv, sc, ss, sr, ssa, sst, sm, ssb⟩ := scroll_down_step_facts b hg
    obtain ⟨b2, ie, iv, ic, is, ir, isa, ist, im, isb⟩ := ih b1 sv
    refine ⟨b2, ?_, iv, ic.trans sc, is.trans ss, ir.trans sr, isa.trans ssa,
      ist.trans sst, im.trans sm, isb.trans ssb⟩
    show (b.scroll_down_step).bind _ = some b2
    rw [he, Option.some_bind]
    exact ie

theorem insert_lines_step_facts (b : TerminalBuffer) (hg : GridValid b) :
    ∃ b2, b.insert_lines_step = some b2 ∧ GridValid b2 ∧
      b2.cursor = b.cursor ∧ b2.size = b.size ∧ b2.scroll_region = b.scroll_region ∧
      b2.saved_cursor = b.saved_cursor ∧ b2.current_style = b.current_style ∧
      b2.max_scrollback = b.max_scrollback ∧ b2.scrollback = b.scrollback := by
  obtain ⟨c1, c2, r1, r2, hlen, hmem, ht, hb, hsb, hs1, hs2⟩ := hg
  unfold TerminalBuffer.insert_lines_step
  dsimp only
  by_cases hcond : b.scroll_region.2 < b.lines.length ∧ b.cursor.row ≤ b.scroll_region.2
  · rw [if_pos hcond]
    have hlen1 : (b.lines.eraseIdx b.scroll_region.2).length = b.lines.length - 1 := by
      rw [List.length_eraseIdx, if_pos hcond.1]
    have hrow : b.cursor.row ≤ (b.lines.eraseIdx b.scroll_region.2).length := by omega
    rw [if_pos hrow]
    refine ⟨_, rfl, ⟨c1, c2, r1, r2, ?_, ?_, ht, hb, hsb, hs1, hs2⟩,
      rfl, rfl, rfl, rfl, rfl, rfl, rfl⟩
    · dsimp only
      rw [List.length_insertIdx _ _ hrow, hlen1]
      omega
    · intro l hl
      dsimp only at hl
      rw [List.mem_insertIdx hrow] at hl
      rcases hl with hl | hl
      · rw [hl]
        exact TerminalLine.length_new _
      · exact hmem _ (List.Sublist.mem hl (List.eraseIdx_sublist b.lines _))
  · rw [if_neg hcond]
    exact ⟨b, rfl, ⟨c1, c2, r1, r2, hlen, hmem, ht, hb, hsb, hs1, hs2⟩,
      rfl, rfl, rfl, rfl, rfl, rfl, rfl⟩

theorem insert_lines_facts (b : TerminalBuffer) (hg : GridValid b) (n : Nat) :
    ∃ b2, b.insert_lines n = some b2 ∧ GridValid b2 ∧
      b2.cursor = b.cursor ∧ b2.size = b.size ∧ b2.scroll_region = b.scroll_region ∧
      b2.saved_cursor = b.saved_cursor ∧ b2.current_style = b.current_style ∧
      b2.max_scrollback = b.max_scrollback ∧ b2.scrollback = b.scrollback := by
  induction n generalizing b with
  | zero => exact ⟨b, rfl, hg, rfl, rfl, rfl, rfl, rfl, rfl, rfl⟩
  | succ m ih =>
    obtain ⟨b1, he, sv, sc, ss, sr, ssa, sst, sm, ssb⟩ := insert_lines_step_facts b hg
    obtain ⟨b2, ie, iv, ic, is, ir, isa, ist, im, isb⟩ := ih b1 sv
    refine ⟨b2, ?_, iv, ic.trans sc, is.trans ss, ir.trans sr, isa.trans ssa,
      ist.trans sst, im.trans sm, isb.trans ssb⟩
    show (b.insert_lines_step).bind _ = some b2
    rw [he, Option.some_bind]
    exact ie

theorem delete_lines_step_facts (b : TerminalBuffer) (hg : GridValid b) :
    ∃ b2, b.delete_lines_step = some b2 ∧ GridValid b2 ∧
      b2.cursor = b.cursor ∧ b2.size = b.size ∧ b2.scroll_region = b.scroll_region ∧
      b2.saved_cursor = b.saved_cursor ∧ b2.current_style = b.current_style ∧
      b2.max_scrollback = b.max_scrollback ∧ b2.scrollback = b.scrollback := by
  obtain ⟨c1, c2, r1, r2, hlen, hmem, ht, hb, hsb, hs1, hs2⟩ := hg
  unfold TerminalBuffer.delete_lines_step
  dsimp only
  by_cases hcond : b.cursor.row < b.lines.length ∧ b.cursor.row ≤ b.scroll_region.2
  · rw [if_pos hcond]
    have hlen1 : (b.lines.eraseIdx b.cursor.row).length = b.lines.length - 1 := by
      rw [List.length_eraseIdx, if_pos hcond.1]
    have hbot : b.scroll_region.2 ≤ (b.lines.eraseIdx b.cursor.row).length := by omega
    rw [if_pos hbot]
    refine ⟨_, rfl, ⟨c1, c2, r1, r2, ?_, ?_, ht, hb, hsb, hs1, hs2⟩,
      rfl, rfl, rfl, rfl, rfl, rfl, rfl⟩
    · dsimp only
      rw [List.length_insertIdx _ _ hbot, hlen1]
      omega
    · intro l hl
      dsimp only at hl
      rw [List.mem_insertIdx hbot] at hl
      rcases hl with hl | hl
      · rw [hl]
        exact TerminalLine.length_new _
      · exact hmem _ (List.Sublist.mem hl (List.eraseIdx_sublist b.lines _))
  · rw [if_neg hcond]
    exact ⟨b, rfl, ⟨c1, c2, r1, r2, hlen, hmem, ht, hb, hsb, hs1, hs2⟩,
      rfl, rfl, rfl, rfl, rfl, rfl, rfl⟩

theorem delete_lines_facts (b : TerminalBuffer) (hg : GridValid b) (n : Nat) :
    ∃ b2, b.delete_lines n = some b2 ∧ GridValid b2 ∧
      b2.cursor = b.cursor ∧ b2.size = b.size ∧ b2.scroll_region = b.scroll_region ∧
      b2.saved_cursor = b.saved_cursor ∧ b2.current_style = b.current_style ∧
      b2.max_scrollback = b.max_scrollback ∧ b2.scrollback = b.scrollback := by
  induction n generalizing b with
  | zero => exact ⟨b, rfl, hg, rfl, rfl, rfl, rfl, rfl, rfl, rfl⟩
  | succ m ih =>
    obtain ⟨b1, he, sv, sc, ss, sr, ssa, sst, sm, ssb⟩ := delete_lines_step_facts b hg
    obtain ⟨b2, ie, iv, ic, is, ir, isa, ist, im, isb⟩ := ih b1 sv
    refine ⟨b2, ?_, iv, ic.trans sc, is.trans ss, ir.trans sr, isa.trans ssa,
      ist.trans sst, im.trans sm, isb.trans ssb⟩
    show (b.delete_lines_step).bind _ = some b2
    rw [he, Option.some_bind]
    exact ie

theorem gridValid_cursor_update (b : TerminalBuffer) (hg : GridValid b) (p : CursorPos) :
    GridValid { b with cursor := p } := by
  obtain ⟨c1, c2, r1, r2, hlen, hmem, ht, hb2, hsb, hs1, hs2⟩ := hg
  exact ⟨c1, c2, r1, r2, hlen, hmem, ht, hb2, hsb, hs1, hs2⟩

theorem put_wrap_facts (b : TerminalBuffer) (hv : Valid b) :
    Valid b.put_wrap ∧ b.put_wrap.cursor.col < b.put_wrap.size.1 ∧
    b.put_wrap.size = b.size ∧ b.put_wrap.scroll_region = b.scroll_region ∧
    b.put_wrap.saved_cursor = b.saved_cursor ∧ b.put_wrap.current_style = b.current_style ∧
    b.put_wrap.max_scrollback = b.max_scrollback := by
  obtain ⟨hg, hrow, hcol⟩ := hv
  have c1 := hg.1
  have c2 := hg.2.1
  have r1 := hg.2.2.1
  have r2 := hg.2.2.2.1
  unfold TerminalBuffer.put_wrap
  by_cases hc : b.cursor.col ≥ b.size.1
  · rw [if_pos hc]
    dsimp only
    have hu : u16 (b.cursor.row + 1) = b.cursor.row + 1 := u16_eq_of_lt (by omega)
    rw [hu]
    by_cases hr : b.cursor.row + 1 ≥ b.size.2
    · rw [if_pos hr]
      have hg1 : GridValid { b with cursor := (⟨b.cursor.row + 1, 0⟩ : CursorPos) } :=
        gridValid_cursor_update b hg _
      obtain ⟨sg, sc, ssz, sr, ssa, sst, sm⟩ :=
        scroll_up_facts { b with cursor := (⟨b.cursor.row + 1, 0⟩ : CursorPos) } hg1 1
      generalize hS : TerminalBuffer.scroll_up
          { b with cursor := (⟨b.cursor.row + 1, 0⟩ : CursorPos) } 1 = S
        at sg sc ssz sr ssa sst sm ⊢
      have hsz2 : S.size.2 = b.size.2 := by rw [ssz]
      have hsz1 : S.size.1 = b.size.1 := by rw [ssz]
      have hcol0 : S.cursor.col = 0 := by rw [sc]
      refine ⟨⟨gridValid_cursor_update S sg _, ?_, ?_⟩, ?_, ssz, sr, ssa, sst, sm⟩
      · show u16sub S.size.2 1 < S.size.2
        rw [hsz2, u16sub_one r1 r2]
        omega
      · show S.cursor.col ≤ S.size.1
        rw [hcol0]
        omega
      · show S.cursor.col < S.size.1
        rw [hcol0, hsz1]
        omega
    · rw [if_neg hr]
      exact ⟨⟨gridValid_cursor_update b hg _, by simp <;> omega, by simp <;> omega⟩,
        by simp <;> omega, rfl, rfl, rfl, rfl, rfl⟩
  · rw [if_neg hc]
    exact ⟨⟨hg, hrow, hcol⟩, by omega, rfl, rfl, rfl, rfl, rfl⟩

theorem put_at_facts (b : TerminalBuffer) (hg : GridValid b) (c : Char) :
    GridValid (b.put_at c) ∧ (b.put_at c).cursor = b.cursor ∧
    (b.put_at c).size = b.size ∧ (b.put_at c).scroll_region = b.scroll_region ∧
    (b.put_at c).saved_cursor = b.saved_cursor ∧
    (b.put_at c).current_style = b.current_style ∧
    (b.put_at c).max_scrollback = b.max_scrollback ∧
    (b.put_at c).scrollback = b.scrollback := by
  obtain ⟨c1, c2, r1, r2, hlen, hmem, ht, hb, hsb, hs1, hs2⟩ := hg
  unfold TerminalBuffer.put_at
  split
  · rename_i h
    refine ⟨⟨c1, c2, r1, r2, ?_, ?_, ht, hb, hsb, hs1, hs2⟩, rfl, rfl, rfl, rfl, rfl, rfl, rfl⟩
    · simp only [List.length_set]
      exact hlen
    · intro l hl
      rcases List.mem_or_eq_of_mem_set hl with h2 | h2
      · exact hmem _ h2
      · subst h2
        rw [TerminalLine.length_set_eq]
        exact hmem _ (List.getElem_mem h)
  · exact ⟨⟨c1, c2, r1, r2, hlen, hmem, ht, hb, hsb, hs1, hs2⟩, rfl, rfl, rfl, rfl, rfl, rfl, rfl⟩

theorem put_char_facts (b : TerminalBuffer) (hv : Valid b) (c : Char) :
    Valid (b.put_char c) ∧ (b.put_char c).size = b.size ∧
    (b.put_char c).scroll_region = b.scroll_region ∧
    (b.put_char c).saved_cursor = b.saved_cursor ∧
    (b.put_char c).current_style = b.current_style ∧
    (b.put_char c).max_scrollback = b.max_scrollback := by
  have hvc2 : b.size.1 < 65536 := hv.1.2.1
  obtain ⟨⟨wg, wrow, wcol⟩, wlt, wsize, wreg, wsa, wst, wm⟩ := put_wrap_facts b hv
  have wsz1 : b.put_wrap.size.1 = b.size.1 := by rw [wsize]
  have wsz2 : b.put_wrap.size.2 = b.size.2 := by rw [wsize]
  obtain ⟨ag, ac, asize, areg, asa, ast, am, asb⟩ := put_at_facts b.put_wrap wg c
  unfold TerminalBuffer.put_char
  dsimp only
  generalize hA : TerminalBuffer.put_at b.put_wrap c = A
    at ag ac asize areg asa ast am asb ⊢
  have harow : A.cursor.row = b.put_wrap.cursor.row := by rw [ac]
  have hacol : A.cursor.col = b.put_wrap.cursor.col := by rw [ac]
  have hasz1 : A.size.1 = b.size.1 := by rw [asize, wsize]
  have hasz2 : A.size.2 = b.size.2 := by rw [asize, wsize]
  have hcolb : A.cursor.col < b.size.1 := by
    rw [hacol, ← wsz1]
    exact wlt
  have hu : u16 (A.cursor.col + 1) = A.cursor.col + 1 := u16_eq_of_lt (by omega)
  refine ⟨⟨gridValid_cursor_update A ag _, ?_, ?_⟩, ?_, ?_, ?_, ?_, ?_⟩
  · show A.cursor.row < A.size.2
    rw [harow, hasz2, ← wsz2]
    exact wrow
  · show u16 (A.cursor.col + 1) ≤ A.size.1
    rw [hu, hasz1]
    omega
  · show A.size = b.size
    exact asize.trans wsize
  · show A.scroll_region = b.scroll_region
    exact areg.trans wreg
  · show A.saved_cursor = b.saved_cursor
    exact asa.trans wsa
  · show A.current_style = b.current_style
    exact ast.trans wst
  · show A.max_scrollback = b.max_scrollback
    exact am.trans wm

theorem newline_facts (b : TerminalBuffer) (hv : Valid b) :
    Valid b.newline ∧ b.newline.size = b.size ∧
    b.newline.scroll_region = b.scroll_region ∧
    b.newline.saved_cursor = b.saved_cursor ∧
    b.newline.current_style = b.current_style ∧
    b.newline.max_scrollback = b.max_scrollback := by
  obtain ⟨hg, hrow, hcol⟩ := hv
  have r1 := hg.2.2.1
  have r2 := hg.2.2.2.1
  have hb := hg.2.2.2.2.2.2.2.1
  unfold TerminalBuffer.newline
  dsimp only
  have hu : u16 (b.cursor.row + 1) = b.cursor.row + 1 := u16_eq_of_lt (by omega)
  rw [hu]
  by_cases hgt : b.cursor.row + 1 > b.scroll_region.2
  · rw [if_pos hgt]
    have hg1 : GridValid { b with cursor := (⟨b.cursor.row + 1, 0⟩ : CursorPos) } :=
      gridValid_cursor_update b hg _
    obtain ⟨sg, sc, ssz, sr, ssa, sst, sm⟩ :=
      scroll_up_facts { b with cursor := (⟨b.cursor.row + 1, 0⟩ : CursorPos) } hg1 1
    generalize hS : TerminalBuffer.scroll_up
        { b with cursor := (⟨b.cursor.row + 1, 0⟩ : CursorPos) } 1 = S
      at sg sc ssz sr ssa sst sm ⊢
    have hsz2 : S.size.2 = b.size.2 := by rw [ssz]
    have hreg2 : S.scroll_region.2 = b.scroll_region.2 := by rw [sr]
    have hcol0 : S.cursor.col = 0 := by rw [sc]
    refine ⟨⟨gridValid_cursor_update S sg _, ?_, ?_⟩, ssz, sr, ssa, sst, sm⟩
    · show S.scroll_region.2 < S.size.2
      rw [hreg2, hsz2]
      omega
    · show S.cursor.col ≤ S.size.1
      rw [hcol0]
      omega
  · rw [if_neg hgt]
    exact ⟨⟨gridValid_cursor_update b hg _, by simp <;> omega, by simp⟩,
      rfl, rfl, rfl, rfl, rfl⟩

theorem modify_line_facts (b : TerminalBuffer) (hv : Valid b) {row : Nat}
    (h : row < b.lines.length) (f : TerminalLine → TerminalLine)
    (hf : ∀ l, (f l).chars.length = l.chars.length) :
    Valid { b with lines := b.lines.set row (f (b.lines.get ⟨row, h⟩)) } := by
  obtain ⟨⟨c1, c2, r1, r2, hlen, hmem, ht, hb, hsb, hs1, hs2⟩, hrow, hcol⟩ := hv
  refine ⟨⟨c1, c2, r1, r2, ?_, ?_, ht, hb, hsb, hs1, hs2⟩, hrow, hcol⟩
  · simp only [List.length_set]
    exact hlen
  · intro l hl
    rcases List.mem_or_eq_of_mem_set hl with h2 | h2
    · exact hmem _ h2
    · subst h2
      rw [hf]
      exact hmem _ (List.getElem_mem h)

theorem clear_to_eol_facts (b : TerminalBuffer) (hv : Valid b) :
    Valid b.clear_to_eol ∧ b.clear_to_eol.cursor = b.cursor ∧
    b.clear_to_eol.size = b.size ∧ b.clear_to_eol.scroll_region = b.scroll_region ∧
    b.clear_to_eol.saved_cursor = b.saved_cursor ∧
    b.clear_to_eol.current_style = b.current_style ∧
    b.clear_to_eol.max_scrollback = b.max_scrollback ∧
    b.clear_to_eol.scrollback = b.scrollback ∧
    b.clear_to_eol.lines.length = b.lines.length := by
  unfold TerminalBuffer.clear_to_eol
  split
  · exact ⟨modify_line_facts b hv _ _ (fun l => l.length_clearRange _ _),
      rfl, rfl, rfl, rfl, rfl, rfl, rfl, by simp⟩
  · exact ⟨hv, rfl, rfl, rfl, rfl, rfl, rfl, rfl, rfl⟩

theorem clear_to_bol_facts (b : TerminalBuffer) (hv : Valid b) :
    Valid b.clear_to_bol ∧ b.clear_to_bol.cursor = b.cursor ∧
    b.clear_to_bol.size = b.size ∧ b.clear_to_bol.scroll_region = b.scroll_region ∧
    b.clear_to_bol.saved_cursor = b.saved_cursor ∧
    b.clear_to_bol.current_style = b.current_style ∧
    b.clear_to_bol.max_scrollback = b.max_scrollback ∧
    b.clear_to_bol.scrollback = b.scrollback ∧
    b.clear_to_bol.lines.length = b.lines.length := by
  unfold TerminalBuffer.clear_to_bol
  split
  · exact ⟨modify_line_facts b hv _ _ (fun l => l.length_clearRange _ _),
      rfl, rfl, rfl, rfl, rfl, rfl, rfl, by simp⟩
  · exact ⟨hv, rfl, rfl, rfl, rfl, rfl, rfl, rfl, rfl⟩

theorem clear_line_facts (b : TerminalBuffer) (hv : Valid b) :
    Valid b.clear_line ∧ b.clear_line.cursor = b.cursor ∧
    b.clear_line.size = b.size ∧ b.clear_line.scroll_region = b.scroll_region ∧
    b.clear_line.saved_cursor = b.saved_cursor ∧
    b.clear_line.current_style = b.current_style ∧
    b.clear_line.max_scrollback = b.max_scrollback := by
  unfold TerminalBuffer.clear_line
  split
  · exact ⟨modify_line_facts b hv _ _ (fun l => l.length_clear), rfl, rfl, rfl, rfl, rfl, rfl⟩
  · exact ⟨hv, rfl, rfl, rfl, rfl, rfl, rfl⟩

theorem erase_chars_facts (b : TerminalBuffer) (hv : Valid b) (n : Nat) :
    Valid (b.erase_chars n) ∧ (b.erase_chars n).cursor = b.cursor ∧
    (b.erase_chars n).size = b.size ∧ (b.erase_chars n).scroll_region = b.scroll_region ∧
    (b.erase_chars n).saved_cursor = b.saved_cursor ∧
    (b.erase_chars n).current_style = b.current_style ∧
    (b.erase_chars n).max_scrollback = b.max_scrollback := by
  unfold TerminalBuffer.erase_chars
  split
  · exact ⟨modify_line_facts b hv _ _ (fun l => l.length_clearRange _ _),
      rfl, rfl, rfl, rfl, rfl, rfl⟩
  · exact ⟨hv, rfl, rfl, rfl, rfl, rfl, rfl⟩

theorem clear_screen_facts (b : TerminalBuffer) (hv : Valid b) :
    Valid b.clear_screen ∧ b.clear_screen.cursor = b.cursor ∧
    b.clear_screen.size = b.size ∧ b.clear_screen.scroll_region = b.scroll_region ∧
    b.clear_screen.saved_cursor = b.saved_cursor ∧
    b.clear_screen.current_style = b.current_style ∧
    b.clear_screen.max_scrollback = b.max_scrollback := by
  obtain ⟨⟨c1, c2, r1, r2, hlen, hmem, ht, hb, hsb, hs1, hs2⟩, hrow, hcol⟩ := hv
  unfold TerminalBuffer.clear_screen
  refine ⟨⟨⟨c1, c2, r1, r2, ?_, ?_, ht, hb, hsb, hs1, hs2⟩, hrow, hcol⟩,
    rfl, rfl, rfl, rfl, rfl, rfl⟩
  · simp only [List.length_map]
    exact hlen
  · intro l hl
    rw [List.mem_map] at hl
    obtain ⟨l0, hl0, he⟩ := hl
    rw [← he, TerminalLine.length_clear]
    exact hmem _ hl0

theorem clear_to_eos_facts (b : TerminalBuffer) (hv : Valid b) :
    Valid b.clear_to_eos ∧ b.clear_to_eos.cursor = b.cursor ∧
    b.clear_to_eos.size = b.size ∧ b.clear_to_eos.scroll_region = b.scroll_region ∧
    b.clear_to_eos.saved_cursor = b.saved_cursor ∧
    b.clear_to_eos.current_style = b.current_style ∧
    b.clear_to_eos.max_scrollback = b.max_scrollback := by
  obtain ⟨h1, hc, hsz, hr, hsa, hst, hm, hsb, hll⟩ := clear_to_eol_facts b hv
  obtain ⟨⟨c1, c2, r1, r2, hlen, hmem, ht, hb, hsbb, hs1, hs2⟩, hrow, hcol⟩ := h1
  unfold TerminalBuffer.clear_to_eos
  refine ⟨⟨⟨c1, c2, r1, r2, ?_, ?_, ht, hb, hsbb, hs1, hs2⟩, hrow, hcol⟩,
    hc, hsz, hr, hsa, hst, hm⟩
  · rw [length_clearRows]
    exact hlen
  · exact mem_clearRows _ _ hmem

theorem clear_to_bos_facts (b : TerminalBuffer) (hv : Valid b) :
    Valid b.clear_to_bos ∧ b.clear_to_bos.cursor = b.cursor ∧
    b.clear_to_bos.size = b.size ∧ b.clear_to_bos.scroll_region = b.scroll_region ∧
    b.clear_to_bos.saved_cursor = b.saved_cursor ∧
    b.clear_to_bos.current_style = b.current_style ∧
    b.clear_to_bos.max_scrollback = b.max_scrollback := by
  obtain ⟨h1, hc, hsz, hr, hsa, hst, hm, hsb, hll⟩ := clear_to_bol_facts b hv
  obtain ⟨⟨c1, c2, r1, r2, hlen, hmem, ht, hb, hsbb, hs1, hs2⟩, hrow, hcol⟩ := h1
  unfold TerminalBuffer.clear_to_bos
  refine ⟨⟨⟨c1, c2, r1, r2, ?_, ?_, ht, hb, hsbb, hs1, hs2⟩, hrow, hcol⟩,
    hc, hsz, hr, hsa, hst, hm⟩
  · rw [length_clearRows]
    exact hlen
  · exact mem_clearRows _ _ hmem

theorem handle_sgr_facts (b : TerminalBuffer) (hv : Valid b) (params : List Nat) :
    Valid (b.handle_sgr params) ∧ (b.handle_sgr params).cursor = b.cursor ∧
    (b.handle_sgr params).size = b.size ∧
    (b.handle_sgr params).scroll_region = b.scroll_region ∧
    (b.handle_sgr params).saved_cursor = b.saved_cursor ∧
    (b.handle_sgr params).max_scrollback = b.max_scrollback ∧
    (b.handle_sgr params).lines = b.lines ∧
    (b.handle_sgr params).scrollback = b.scrollback := by
  obtain ⟨hg, hrow, hcol⟩ := hv
  unfold TerminalBuffer.handle_sgr
  exact ⟨⟨hg, hrow, hcol⟩, rfl, rfl, rfl, rfl, rfl, rfl, rfl⟩

theorem valid_reset_style (b : TerminalBuffer) (hv : Valid b) : Valid b.reset_style := by
  obtain ⟨hg, hrow, hcol⟩ := hv
  unfold TerminalBuffer.reset_style
  exact ⟨hg, hrow, hcol⟩

theorem backspace_fields (b : TerminalBuffer) :
    b.backspace.size = b.size ∧ b.backspace.max_scrollback = b.max_scrollback := by
  unfold TerminalBuffer.backspace
  split
  · exact ⟨rfl, rfl⟩
  · exact ⟨rfl, rfl⟩

theorem restore_cursor_fields (b : TerminalBuffer) :
    b.restore_cursor.size = b.size ∧ b.restore_cursor.max_scrollback = b.max_scrollback := by
  unfold TerminalBuffer.restore_cursor
  cases b.saved_cursor
  · exact ⟨rfl, rfl⟩
  · exact ⟨rfl, rfl⟩

theorem execute_facts (b : TerminalBuffer) (hv : Valid b) (byte : Nat) :
    Valid (b.execute byte) ∧ (b.execute byte).size = b.size ∧
    (b.execute byte).max_scrollback = b.max_scrollback := by
  unfold TerminalBuffer.execute
  split
  · exact ⟨valid_backspace b hv, (backspace_fields b).1, (backspace_fields b).2⟩
  · split
    · exact ⟨valid_tab b hv, rfl, rfl⟩
    · split
      · obtain ⟨h1, h2, _, _, _, h6⟩ := newline_facts b hv
        exact ⟨h1, h2, h6⟩
      · split
        · exact ⟨valid_carriage_return b hv, rfl, rfl⟩
        · exact ⟨hv, rfl, rfl⟩

theorem valid_of_parts {b b2 : TerminalBuffer} (hv : Valid b) (hg2 : GridValid b2)
    (hc : b2.cursor = b.cursor) (hs : b2.size = b.size) : Valid b2 := by
  refine ⟨hg2, ?_, ?_⟩
  · rw [hc, hs]
    exact hv.2.1
  · rw [hc, hs]
    exact hv.2.2

set_option maxHeartbeats 4000000 in
theorem csi_dispatch_facts (b : TerminalBuffer) (hv : Valid b) (params : List Nat)
    (action : Char) :
    ∃ b2, b.csi_dispatch params action = some b2 ∧ Valid b2 ∧
      b2.size = b.size ∧ b2.max_scrollback = b.max_scrollback := by
  have hg := hv.1
  unfold TerminalBuffer.csi_dispatch
  dsimp only
  by_cases h1 : action = 'A'
  · rw [if_pos h1]
    exact ⟨_, rfl, valid_move_cursor b hg _ _, rfl, rfl⟩
  rw [if_neg h1]
  by_cases h2 : action = 'B'
  · rw [if_pos h2]
    exact ⟨_, rfl, valid_move_cursor b hg _ _, rfl, rfl⟩
  rw [if_neg h2]
  by_cases h3 : action = 'C'
  · rw [if_pos h3]
    exact ⟨_, rfl, valid_move_cursor b hg _ _, rfl, rfl⟩
  rw [if_neg h3]
  by_cases h4 : action = 'D'
  · rw [if_pos h4]
    exact ⟨_, rfl, valid_move_cursor b hg _ _, rfl, rfl⟩
  rw [if_neg h4]
  by_cases h5 : action = 'E'
  · rw [if_pos h5]
    exact ⟨_, rfl, valid_carriage_return _ (valid_move_cursor b hg _ _), rfl, rfl⟩
  rw [if_neg h5]
  by_cases h6 : action = 'F'
  · rw [if_pos h6]
    exact ⟨_, rfl, valid_carriage_return _ (valid_move_cursor b hg _ _), rfl, rfl⟩
  rw [if_neg h6]
  by_cases h7 : action = 'G'
  · rw [if_pos h7]
    exact ⟨_, rfl, valid_set_cursor b hg _ _, rfl, rfl⟩
  rw [if_neg h7]
  by_cases h8 : action = 'H' ∨ action = 'f'
  · rw [if_pos h8]
    exact ⟨_, rfl, valid_set_cursor b hg _ _, rfl, rfl⟩
  rw [if_neg h8]
  by_cases hJ : action = 'J'
  · rw [if_pos hJ]
    by_cases hj0 : (List.map u16 params).headD 0 = 0
    · rw [if_pos hj0]
      obtain ⟨h1, x0, hsz, x1, x2, x3, hm⟩ := clear_to_eos_facts b hv
      exact ⟨_, rfl, h1, hsz, hm⟩
    rw [if_neg hj0]
    by_cases hj1 : (List.map u16 params).headD 0 = 1
    · rw [if_pos hj1]
      obtain ⟨h1, x0, hsz, x1, x2, x3, hm⟩ := clear_to_bos_facts b hv
      exact ⟨_, rfl, h1, hsz, hm⟩
    rw [if_neg hj1]
    by_cases hj2 : (List.map u16 params).headD 0 = 2 ∨ (List.map u16 params).headD 0 = 3
    · rw [if_pos hj2]
      obtain ⟨h1, x0, hsz, x1, x2, x3, hm⟩ := clear_screen_facts b hv
      exact ⟨_, rfl, h1, hsz, hm⟩
    rw [if_neg hj2]
    exact ⟨_, rfl, hv, rfl, rfl⟩
  rw [if_neg hJ]
  by_cases hK : action = 'K'
  · rw [if_pos hK]
    by_cases hk0 : (List.map u16 params).headD 0 = 0
    · rw [if_pos hk0]
      obtain ⟨h1, x0, hsz, x1, x2, x3, hm, x4, x5⟩ := clear_to_eol_facts b hv
      exact ⟨_, rfl, h1, hsz, hm⟩
    rw [if_neg hk0]
    by_cases hk1 : (List.map u16 params).headD 0 = 1
    · rw [if_pos hk1]
      obtain ⟨h1, x0, hsz, x1, x2, x3, hm, x4, x5⟩ := clear_to_bol_facts b hv
      exact ⟨_, rfl, h1, hsz, hm⟩
    rw [if_neg hk1]
    by_cases hk2 : (List.map u16 params).headD 0 = 2
    · rw [if_pos hk2]
      obtain ⟨h1, x0, hsz, x1, x2, x3, hm⟩ := clear_line_facts b hv
      exact ⟨_, rfl, h1, hsz, hm⟩
    rw [if_neg hk2]
    exact ⟨_, rfl, hv, rfl, rfl⟩
  rw [if_neg hK]
  by_cases h11 : action = 'L'
  · rw [if_pos h11]
    obtain ⟨b2, he, g2, c2, s2, x1, x2, x3, m2, x4⟩ := insert_lines_facts b hg (max ((List.map u16 params).headD 1) 1)
    exact ⟨b2, he, valid_of_parts hv g2 c2 s2, s2, m2⟩
  rw [if_neg h11]
  by_cases h12 : action = 'M'
  · rw [if_pos h12]
    obtain ⟨b2, he, g2, c2, s2, x1, x2, x3, m2, x4⟩ := delete_lines_facts b hg (max ((List.map u16 params).headD 1) 1)
    exact ⟨b2, he, valid_of_parts hv g2 c2 s2, s2, m2⟩
  rw [if_neg h12]
  by_cases h13 : action = 'X'
  · rw [if_pos h13]
    obtain ⟨h1, x0, hsz, x1, x2, x3, hm⟩ := erase_chars_facts b hv (max ((List.map u16 params).headD 1) 1)
    exact ⟨_, rfl, h1, hsz, hm⟩
  rw [if_neg h13]
  by_cases h14 : action = 'S'
  · rw [if_pos h14]
    obtain ⟨sg, sc, ssz, x1, x2, x3, sm⟩ := scroll_up_facts b hg (max ((List.map u16 params).headD 1) 1)
    exact ⟨_, rfl, valid_of_parts hv sg sc ssz, ssz, sm⟩
  rw [if_neg h14]
  by_cases h15 : action = 'T'
  · rw [if_pos h15]
    obtain ⟨b2, he, g2, c2, s2, x1, x2, x3, m2, x4⟩ := scroll_down_facts b hg (max ((List.map u16 params).headD 1) 1)
    exact ⟨b2, he, valid_of_parts hv g2 c2 s2, s2, m2⟩
  rw [if_neg h15]
  by_cases h16 : action = 'm'
  · rw [if_pos h16]
    obtain ⟨h1, x0, hsz, x1, x2, hm, x3, x4⟩ := handle_sgr_facts b hv (List.map u16 params)
    exact ⟨_, rfl, h1, hsz, hm⟩
  rw [if_neg h16]
  by_cases h17 : action = 's'
  · rw [if_pos h17]
    exact ⟨_, rfl, valid_save_cursor b hv, rfl, rfl⟩
  rw [if_neg h17]
  by_cases h18 : action = 'u'
  · rw [if_pos h18]
    exact ⟨_, rfl, valid_restore_cursor b hv, (restore_cursor_fields b).1,
      (restore_cursor_fields b).2⟩
  rw [if_neg h18]
  by_cases h19 : action = 'r'
  · rw [if_pos h19]
    exact ⟨_, rfl, valid_set_scroll_region b hv _ _, rfl, rfl⟩
  rw [if_neg h19]
  exact ⟨_, rfl, hv, rfl, rfl⟩

theorem esc_dispatch_facts (b : TerminalBuffer) (hv : Valid b) (byte : Nat) :
    ∃ b2, b.esc_dispatch byte = some b2 ∧ Valid b2 ∧
      b2.size = b.size ∧ b2.max_scrollback = b.max_scrollback := by
  have hg := hv.1
  unfold TerminalBuffer.esc_dispatch
  split_ifs
  · exact ⟨_, rfl, valid_save_cursor b hv, rfl, rfl⟩
  · exact ⟨_, rfl, valid_restore_cursor b hv, (restore_cursor_fields b).1,
      (restore_cursor_fields b).2⟩
  · obtain ⟨h1, hsz, _, _, _, hm⟩ := newline_facts b hv
    exact ⟨_, rfl, h1, hsz, hm⟩
  · obtain ⟨h1, hsz, _, _, _, hm⟩ := newline_facts b hv
    exact ⟨_, rfl, valid_carriage_return _ h1, hsz, hm⟩
  · obtain ⟨b2, he, g2, c2, s2, _, _, _, m2, _⟩ := scroll_down_facts b hg 1
    exact ⟨b2, he, valid_of_parts hv g2 c2 s2, s2, m2⟩
  · exact ⟨_, rfl, valid_move_cursor b hg _ _, rfl, rfl⟩
  · obtain ⟨h1, _, _, _, _, _⟩ := clear_screen_facts b hv
    exact ⟨_, rfl,
      valid_reset_scroll_region _ (valid_reset_style _ (valid_set_cursor _ h1.1 0 0)),
      rfl, rfl⟩
  · exact ⟨_, rfl, hv, rfl, rfl⟩

theorem applyOp_facts (op : POp) (b : TerminalBuffer) (hv : Valid b) :
    ∃ b2, applyOp op b = some b2 ∧ Valid b2 ∧
      b2.size = b.size ∧ b2.max_scrollback = b.max_scrollback := by
  cases op with
  | print c =>
    obtain ⟨h1, hsz, _, _, _, hm⟩ := put_char_facts b hv c
    exact ⟨_, rfl, h1, hsz, hm⟩
  | exec byte =>
    obtain ⟨h1, hsz, hm⟩ := execute_facts b hv byte
    exact ⟨_, rfl, h1, hsz, hm⟩
  | csi params action => exact csi_dispatch_facts b hv params action
  | esc byte => exact esc_dispatch_facts b hv byte

theorem applyOps_facts (ops : List POp) (b : TerminalBuffer) (hv : Valid b) :
    ∃ b2, applyOps ops b = some b2 ∧ Valid b2 ∧
      b2.size = b.size ∧ b2.max_scrollback = b.max_scrollback := by
  induction ops generalizing b with
  | nil => exact ⟨b, rfl, hv, rfl, rfl⟩
  | cons op rest ih =>
    obtain ⟨b1, he, h1, hsz, hm⟩ := applyOp_facts op b hv
    obtain ⟨b2, ie, i1, isz, im⟩ := ih b1 h1
    refine ⟨b2, ?_, i1, isz.trans hsz, im.trans hm⟩
    show (applyOp op b).bind _ = some b2
    rw [he, Option.some_bind]
    exact ie

/-- Modelled from the spec: the documented cube-component formula, `0` if `c = 0`
else `55 + 40·c`. -/
def cubeComponentSpec (c : Nat) : Nat := if c = 0 then 0 else 55 + 40 * c

/-- Modelled from the spec: the documented grayscale formula `8 + 10·i`. -/
def grayRampSpec (i : Nat) : Nat := 8 + 10 * i

/-- Modelled from the spec: the documented piecewise 256-color mapping — the
16-entry ANSI table below 16, the 6×6×6 cube up to 231, the gray ramp above. -/
def color256Spec (index : Nat) : Color32 :=
  if index < 16 then ANSI_COLORS.getD index (Color32.from_rgb 0 0 0)
  else if index < 232 then
    Color32.from_rgb (cubeComponentSpec ((index - 16) / 36 % 6))
      (cubeComponentSpec ((index - 16) / 6 % 6))
      (cubeComponentSpec ((index - 16) % 6))
  else
    Color32.from_rgb (grayRampSpec (index - 232)) (grayRampSpec (index - 232))
      (grayRampSpec (index - 232))

/-- C9: `color_256_to_rgb` computes exactly the documented tables and formulas —
the 16-entry ANSI table for indices below 16, the 6×6×6 cube with component
formula `0` if `c = 0` else `55 + 40·c` for indices 16–231, and the gray ramp
`8 + 10·(index − 232)` for indices 232–255 — and every channel stays within the
u8 range, for every u8 index. -/
theorem c9_color_table_spec :
    ∀ i : Fin 256, color_256_to_rgb i.val = color256Spec i.val ∧
      (color_256_to_rgb i.val).r ≤ 255 ∧ (color_256_to_rgb i.val).g ≤ 255 ∧
      (color_256_to_rgb i.val).b ≤ 255 ∧ (color_256_to_rgb i.val).a ≤ 255 := by
  decide

/-- C10: invoking `restore_cursor` (directly, via ESC 8, or via CSI u) on a
buffer whose saved cursor slot is empty leaves the entire buffer state
unchanged. -/
theorem c10_restore_without_save_noop (b : TerminalBuffer) (params : List Nat)
    (h : b.saved_cursor = none) :
    b.restore_cursor = b ∧ b.esc_dispatch 56 = some b ∧
    b.csi_dispatch params 'u' = some b := by
  have hr : b.restore_cursor = b := by
    unfold TerminalBuffer.restore_cursor
    rw [h]
  have h1 : b.esc_dispatch 56 = some b.restore_cursor := rfl
  have h2 : b.csi_dispatch params 'u' = some b.restore_cursor := rfl
  exact ⟨hr, by rw [h1, hr], by rw [h2, hr]⟩

/-- Witness for C10 at a fresh 2×2 buffer, whose saved cursor slot is empty. -/
theorem c10_restore_without_save_noop_witness :
    (TerminalBuffer.new 2 2).restore_cursor = TerminalBuffer.new 2 2 ∧
    (TerminalBuffer.new 2 2).esc_dispatch 56 = some (TerminalBuffer.new 2 2) ∧
    (TerminalBuffer.new 2 2).csi_dispatch [] 'u' = some (TerminalBuffer.new 2 2) :=
  c10_restore_without_save_noop (TerminalBuffer.new 2 2) [] rfl

/-- C1: on a fresh 80×24 buffer, the byte sequence `ESC [ 9 9 C` followed by
`ESC [ 3 2 7 6 7 C` first parks the cursor at column 79, and the second
cursor-forward then evaluates `79_i16 + 32767_i16` inside `move_cursor`; under
overflow checks (the dev/fuzz default) this addition leaves the i16 range and
panics (`none` in the checked model), falsifying the no-panic guarantee. -/
theorem c1_move_cursor_overflow_trap :
    ((TerminalBuffer.new 80 24).csi_dispatch [99] 'C').map (fun b => b.cursor.col) =
      some 79 ∧
    (((TerminalBuffer.new 80 24).csi_dispatch [99] 'C').bind
      (fun b => b.move_cursor_checked (i16ofU16 (max (u16 32767) 1)) 0)) = none := by
  exact ⟨rfl, rfl⟩

/-- Counterexample to C4 as stated: on a 1×1 buffer a single printable
character leaves `cursor.col = 1 = cols`, so `cursor.col < cols` fails right
after a parser-reachable operation. -/
theorem c4_pending_wrap_col_eq_cols :
    (applyOps [POp.print 'a'] (TerminalBuffer.new 1 1)).map
      (fun b => (b.cursor.col, b.size.1)) = some (1, 1) ∧ ¬ (1 < 1) :=
  ⟨rfl, by omega⟩

/-- C4 (amended): after any stream of parser-dispatched operations on a fresh
buffer with `1 ≤ cols < 2^16` and `1 ≤ rows < 2^16`, no operation panics and
the cursor satisfies `cursor.col ≤ cols` (with equality only in the
pending-wrap state) and `cursor.row < rows`. -/
theorem c4_cursor_bounds (cols rows : Nat) (h1 : 1 ≤ cols) (h2 : cols < 65536)
    (h3 : 1 ≤ rows) (h4 : rows < 65536) (ops : List POp) :
    ∃ b2, applyOps ops (TerminalBuffer.new cols rows) = some b2 ∧
      b2.cursor.col ≤ cols ∧ b2.cursor.row < rows := by
  obtain ⟨b2, he, hv, hsz, _⟩ := applyOps_facts ops _ (valid_new h1 h2 h3 h4)
  have hszc : b2.size.1 = cols := by rw [hsz]; rfl
  have hszr : b2.size.2 = rows := by rw [hsz]; rfl
  refine ⟨b2, he, ?_, ?_⟩
  · rw [← hszc]
    exact hv.2.2
  · rw [← hszr]
    exact hv.2.1

/-- Witness for C4 (amended) on a 2×2 buffer receiving one printed character. -/
theorem c4_cursor_bounds_witness :
    ∃ b2, applyOps [POp.print 'a'] (TerminalBuffer.new 2 2) = some b2 ∧
      b2.cursor.col ≤ 2 ∧ b2.cursor.row < 2 :=
  c4_cursor_bounds 2 2 (by decide) (by decide) (by decide) (by decide) [POp.print 'a']

/-- Counterexample to C5 as stated: CSI `5;2r` on an 80×24 buffer leaves the
scroll region `(4, 1)`, whose top exceeds its bottom. -/
theorem c5_inverted_region :
    ((TerminalBuffer.new 80 24).csi_dispatch [5, 2] 'r').map (fun b => b.scroll_region) =
      some (4, 1) ∧ ¬ ((4 : Nat) ≤ 1) :=
  ⟨rfl, by omega⟩

/-- C5 (amended): after any stream of parser-dispatched operations on a fresh
buffer, each scroll-region bound separately stays below the row count (and
`set_scroll_region` clamps each bound to `rows − 1` independently), but
`top ≤ bottom` is not enforced. -/
theorem c5_region_bounds (cols rows : Nat) (h1 : 1 ≤ cols) (h2 : cols < 65536)
    (h3 : 1 ≤ rows) (h4 : rows < 65536) (ops : List POp) (b : TerminalBuffer)
    (top bottom : Nat) :
    (∃ b2, applyOps ops (TerminalBuffer.new cols rows) = some b2 ∧
      b2.scroll_region.1 < rows ∧ b2.scroll_region.2 < rows) ∧
    (b.set_scroll_region top bottom).scroll_region =
      (min top (b.size.2 - 1), min bottom (b.size.2 - 1)) := by
  constructor
  · obtain ⟨b2, he, hv, hsz, _⟩ := applyOps_facts ops _ (valid_new h1 h2 h3 h4)
    have hszr : b2.size.2 = rows := by rw [hsz]; rfl
    obtain ⟨⟨_, _, _, _, _, _, ht, hb, _, _, _⟩, _, _⟩ := hv
    exact ⟨b2, he, by rw [← hszr]; exact ht, by rw [← hszr]; exact hb⟩
  · rfl

/-- Witness for C5 (amended) on a 2×2 buffer receiving CSI `5;2r`. -/
theorem c5_region_bounds_witness :
    (∃ b2, applyOps [POp.csi [5, 2] 'r'] (TerminalBuffer.new 2 2) = some b2 ∧
      b2.scroll_region.1 < 2 ∧ b2.scroll_region.2 < 2) ∧
    ((TerminalBuffer.new 3 3).set_scroll_region 5 1).scroll_region =
      (min 5 ((TerminalBuffer.new 3 3).size.2 - 1),
       min 1 ((TerminalBuffer.new 3 3).size.2 - 1)) :=
  c5_region_bounds 2 2 (by decide) (by decide) (by decide) (by decide)
    [POp.csi [5, 2] 'r'] (TerminalBuffer.new 3 3) 5 1

theorem scroll_up_step_cursor (b : TerminalBuffer) : b.scroll_up_step.cursor = b.cursor := by
  unfold TerminalBuffer.scroll_up_step
  dsimp only
  split <;> rfl

theorem scroll_up_cursor (b : TerminalBuffer) (n : Nat) :
    (b.scroll_up n).cursor = b.cursor := by
  induction n generalizing b with
  | zero => rfl
  | succ m ih => exact (ih b.scroll_up_step).trans (scroll_up_step_cursor b)

theorem scroll_up_step_cursor_indep (b : TerminalBuffer) (c : CursorPos) :
    TerminalBuffer.scroll_up_step { b with cursor := c } =
      { b.scroll_up_step with cursor := c } := by
  unfold TerminalBuffer.scroll_up_step
  dsimp only
  by_cases h : b.scroll_region.1 < b.lines.length
  · rw [dif_pos h, dif_pos h]
  · rw [dif_neg h, dif_neg h]

theorem scroll_up_cursor_indep (b : TerminalBuffer) (c : CursorPos) (n : Nat) :
    TerminalBuffer.scroll_up { b with cursor := c } n =
      { b.scroll_up n with cursor := c } := by
  induction n generalizing b with
  | zero => rfl
  | succ m ih =>
    show TerminalBuffer.scroll_up (TerminalBuffer.scroll_up_step { b with cursor := c }) m = _
    rw [scroll_up_step_cursor_indep b c]
    exact ih b.scroll_up_step

theorem scroll_up_one_archives (b : TerminalBuffer)
    (htop : b.scroll_region.1 < b.lines.length)
    (hcap : b.scrollback.length < b.max_scrollback) :
    (b.scroll_up 1).scrollback =
      b.scrollback ++ [b.lines.getD b.scroll_region.1 (TerminalLine.new 0)] := by
  show (TerminalBuffer.scroll_up_step b).scrollback = _
  unfold TerminalBuffer.scroll_up_step
  rw [dif_pos htop]
  dsimp only
  rw [if_neg (by simp only [List.length_append, List.length_cons, List.length_nil]; omega)]
  rw [List.getD_eq_getElem _ _ htop]
  rfl

/-- Counterexample to C3 as stated: CSI `1 S` on a fresh 2×2 buffer grows the
scrollback from 0 to 1 lines — the line scrolled off the top is archived into
scrollback, not discarded. -/
theorem c3_csi_s_archives_counterexample :
    ((TerminalBuffer.new 2 2).csi_dispatch [1] 'S').map (fun b => b.scrollback.length) =
      some 1 ∧ (TerminalBuffer.new 2 2).scrollback.length = 0 :=
  ⟨rfl, rfl⟩

/-- C3 (amended): for every `n ≥ 1`, CSI S scrolls the active region up by `n`
independently of the cursor (the cursor is neither read nor written), and the
lines scrolled off the top of the region via this path are archived into
scrollback exactly as linefeed scrolling archives them (the scrollback grows),
rather than being discarded. -/
theorem c3_csi_s_independence_archival (b : TerminalBuffer) (params : List Nat)
    (n : Nat) (c : CursorPos)
    (htop : b.scroll_region.1 < b.lines.length)
    (hcap : b.scrollback.length < b.max_scrollback) :
    b.csi_dispatch params 'S' =
      some (b.scroll_up (max ((params.map u16).headD 1) 1)) ∧
    (b.scroll_up n).cursor = b.cursor ∧
    TerminalBuffer.scroll_up { b with cursor := c } n = { b.scroll_up n with cursor := c } ∧
    (b.scroll_up 1).scrollback =
      b.scrollback ++ [b.lines.getD b.scroll_region.1 (TerminalLine.new 0)] :=
  ⟨rfl, scroll_up_cursor b n, scroll_up_cursor_indep b c n,
    scroll_up_one_archives b htop hcap⟩

/-- Witness for C3 (amended) on a fresh 2×2 buffer with CSI `1 S`. -/
theorem c3_csi_s_independence_archival_witness :
    (TerminalBuffer.new 2 2).csi_dispatch [1] 'S' =
      some ((TerminalBuffer.new 2 2).scroll_up (max (([1].map u16).headD 1) 1)) ∧
    ((TerminalBuffer.new 2 2).scroll_up 1).cursor = (TerminalBuffer.new 2 2).cursor ∧
    TerminalBuffer.scroll_up { TerminalBuffer.new 2 2 with cursor := (⟨0, 0⟩ : CursorPos) } 1 =
      { (TerminalBuffer.new 2 2).scroll_up 1 with cursor := (⟨0, 0⟩ : CursorPos) } ∧
    ((TerminalBuffer.new 2 2).scroll_up 1).scrollback =
      (TerminalBuffer.new 2 2).scrollback ++
        [(TerminalBuffer.new 2 2).lines.getD (TerminalBuffer.new 2 2).scroll_region.1
          (TerminalLine.new 0)] :=
  c3_csi_s_independence_archival (TerminalBuffer.new 2 2) [1] 1 ⟨0, 0⟩ (by decide) (by decide)

theorem i16ofU16_of_lt {n : Nat} (h : n < 32768) : i16ofU16 n = n := by
  unfold i16ofU16
  have hm : n % 65536 = n := Nat.mod_eq_of_lt (by omega)
  rw [hm, if_pos h]

theorem i16wrap_of_range {z : Int} (h1 : -32768 ≤ z) (h2 : z ≤ 32767) : i16wrap z = z := by
  unfold i16wrap
  omega

/-- Counterexample to C7 as stated: on a 2×3 buffer with scroll region rows
1–2, an `x` at cell (1,0) and the cursor at row 1 — the top row of the active
region — ESC M moves the cursor up to row 0 and leaves the grid untouched
(the `x` stays at (1,0)), instead of scrolling the region down by one. -/
theorem c7_reverse_index_region_top :
    (((((TerminalBuffer.new 2 3).set_cursor 0 1).put_char 'x').set_scroll_region
        1 2).set_cursor 0 1).esc_dispatch 77 ≠
      (((((TerminalBuffer.new 2 3).set_cursor 0 1).put_char 'x').set_scroll_region
        1 2).set_cursor 0 1).scroll_down 1 ∧
    ((((((TerminalBuffer.new 2 3).set_cursor 0 1).put_char 'x').set_scroll_region
        1 2).set_cursor 0 1).esc_dispatch 77).map (fun s => (s.cursor.row,
      ((s.lines.getD 1 (TerminalLine.new 0)).chars.getD 0 StyledChar.default).c)) =
      some (0, 'x') := by
  exact ⟨by decide, rfl⟩

/-- C7 (amended): ESC M (Reverse Index) scrolls the active region down by one
exactly when the cursor is at row 0, the top row of the screen (not of the
scroll region); otherwise it moves the cursor up by one row and leaves the
grid and scrollback untouched. -/
theorem c7_reverse_index_spec (b : TerminalBuffer) (hv : Valid b)
    (h32 : b.cursor.row < 32768) :
    (b.cursor.row = 0 → b.esc_dispatch 77 = b.scroll_down 1) ∧
    (b.cursor.row ≠ 0 → ∃ b2, b.esc_dispatch 77 = some b2 ∧
      b2.cursor.row = b.cursor.row - 1 ∧ b2.lines = b.lines ∧
      b2.scrollback = b.scrollback ∧ b2.scroll_region = b.scroll_region) := by
  have hd : b.esc_dispatch 77 =
      (if b.cursor.row = 0 then b.scroll_down 1 else some (b.move_cursor 0 (-1))) := rfl
  constructor
  · intro h0
    rw [hd, if_pos h0]
  · intro h0
    rw [hd, if_neg h0]
    refine ⟨b.move_cursor 0 (-1), rfl, ?_, rfl, rfl, rfl⟩
    unfold TerminalBuffer.move_cursor TerminalBuffer.set_cursor
    dsimp only
    rw [i16ofU16_of_lt h32, i16wrap_of_range (by omega) (by omega)]
    have hrow := hv.2.1
    have hr1 := hv.1.2.2.1
    omega

/-- Witness for C7 (amended): a fresh 2×2 buffer (cursor at row 0, ESC M
scrolls down) and the same buffer with the cursor at row 1 (ESC M moves up). -/
theorem c7_reverse_index_spec_witness :
    (((TerminalBuffer.new 2 2).set_cursor 0 1).cursor.row = 0 →
      ((TerminalBuffer.new 2 2).set_cursor 0 1).esc_dispatch 77 =
        ((TerminalBuffer.new 2 2).set_cursor 0 1).scroll_down 1) ∧
    (((TerminalBuffer.new 2 2).set_cursor 0 1).cursor.row ≠ 0 →
      ∃ b2, ((TerminalBuffer.new 2 2).set_cursor 0 1).esc_dispatch 77 = some b2 ∧
        b2.cursor.row = ((TerminalBuffer.new 2 2).set_cursor 0 1).cursor.row - 1 ∧
        b2.lines = ((TerminalBuffer.new 2 2).set_cursor 0 1).lines ∧
        b2.scrollback = ((TerminalBuffer.new 2 2).set_cursor 0 1).scrollback ∧
        b2.scroll_region = ((TerminalBuffer.new 2 2).set_cursor 0 1).scroll_region) :=
  c7_reverse_index_spec ((TerminalBuffer.new 2 2).set_cursor 0 1) (by decide) (by decide)

/-- Counterexample to C6 as stated: a 4×4 buffer with scroll region set to
rows 1–2, resized to the same 4×4 geometry, ends with scroll region `(0, 3)` —
the region is reset to the full screen, not re-clamped (re-clamping would have
kept `(1, 2)`). -/
theorem c6_resize_resets_region :
    (((TerminalBuffer.new 4 4).set_scroll_region 1 2).resize 4 4).scroll_region = (0, 3) ∧
    ((TerminalBuffer.new 4 4).set_scroll_region 1 2).scroll_region = (1, 2) ∧
    ¬ (((0 : Nat), (3 : Nat)) = ((1 : Nat), (2 : Nat))) := by
  exact ⟨rfl, rfl, by decide⟩

/-- C6 (amended): `resize(cols, rows)` truncates or blank-pads every line to
the new column count, keeps each surviving row's content in place (row `i`
stays row `i` — no rewrapping), appends blank rows or trims rows from the
bottom to reach the new row count, re-clamps the cursor, and resets the scroll
region to the full screen `(0, rows − 1)` rather than re-clamping it;
scrollback, saved cursor, style and scrollback capacity are untouched. -/
theorem c6_resize_spec (b : TerminalBuffer) (cols rows i : Nat)
    (hi : i < b.lines.length) (hir : i < rows) :
    (b.resize cols rows).lines.length = rows ∧
    (∀ l ∈ (b.resize cols rows).lines, l.chars.length = cols) ∧
    (b.resize cols rows).lines.getD i (TerminalLine.new 0) =
      (b.lines.getD i (TerminalLine.new 0)).resize cols ∧
    (b.resize cols rows).cursor =
      (⟨min b.cursor.row (rows - 1), min b.cursor.col (cols - 1)⟩ : CursorPos) ∧
    (b.resize cols rows).scroll_region = (0, rows - 1) ∧
    (b.resize cols rows).size = (cols, rows) ∧
    (b.resize cols rows).scrollback = b.scrollback ∧
    (b.resize cols rows).saved_cursor = b.saved_cursor ∧
    (b.resize cols rows).current_style = b.current_style ∧
    (b.resize cols rows).max_scrollback = b.max_scrollback := by
  unfold TerminalBuffer.resize
  dsimp only
  refine ⟨?_, ?_, ?_, rfl, rfl, rfl, rfl, rfl, rfl, rfl⟩
  · simp only [List.length_append, List.length_take, List.length_map, List.length_replicate]
    omega
  · intro l hl
    rw [List.mem_append] at hl
    rcases hl with hl | hl
    · have hl2 := List.mem_of_mem_take hl
      rw [List.mem_map] at hl2
      obtain ⟨l0, _, he⟩ := hl2
      rw [← he]
      exact TerminalLine.length_resize_eq l0 cols
    · rw [List.eq_of_mem_replicate hl]
      exact TerminalLine.length_new cols
  · have hlt : i < (List.take rows (b.lines.map (fun l => l.resize cols))).length := by
      simp only [List.length_take, List.length_map]
      omega
    have happ : i < (List.take rows (b.lines.map (fun l => l.resize cols)) ++
        List.replicate (rows - (b.lines.map (fun l => l.resize cols)).length)
          (TerminalLine.new cols)).length := by
      simp only [List.length_append, List.length_take, List.length_map, List.length_replicate]
      omega
    rw [List.getD_eq_getElem _ _ happ, List.getElem_append_left hlt,
      List.getElem_take, List.getElem_map, List.getD_eq_getElem _ _ hi]

/-- Witness for C6 (amended): a 3×3 buffer resized to 2×2, inspecting row 0. -/
theorem c6_resize_spec_witness :
    ((TerminalBuffer.new 3 3).resize 2 2).lines.length = 2 ∧
    (∀ l ∈ ((TerminalBuffer.new 3 3).resize 2 2).lines, l.chars.length = 2) ∧
    ((TerminalBuffer.new 3 3).resize 2 2).lines.getD 0 (TerminalLine.new 0) =
      ((TerminalBuffer.new 3 3).lines.getD 0 (TerminalLine.new 0)).resize 2 ∧
    ((TerminalBuffer.new 3 3).resize 2 2).cursor =
      (⟨min (TerminalBuffer.new 3 3).cursor.row (2 - 1),
        min (TerminalBuffer.new 3 3).cursor.col (2 - 1)⟩ : CursorPos) ∧
    ((TerminalBuffer.new 3 3).resize 2 2).scroll_region = (0, 2 - 1) ∧
    ((TerminalBuffer.new 3 3).resize 2 2).size = (2, 2) ∧
    ((TerminalBuffer.new 3 3).resize 2 2).scrollback = (TerminalBuffer.new 3 3).scrollback ∧
    ((TerminalBuffer.new 3 3).resize 2 2).saved_cursor =
      (TerminalBuffer.new 3 3).saved_cursor ∧
    ((TerminalBuffer.new 3 3).resize 2 2).current_style =
      (TerminalBuffer.new 3 3).current_style ∧
    ((TerminalBuffer.new 3 3).resize 2 2).max_scrollback =
      (TerminalBuffer.new 3 3).max_scrollback :=
  c6_resize_spec (TerminalBuffer.new 3 3) 2 2 0 (by decide) (by decide)

/-- A sequence of `scroll_up` calls with arbitrary counts. -/
def scroll_ups (b : TerminalBuffer) (ns : List Nat) : TerminalBuffer :=
  ns.foldl (fun acc n => acc.scroll_up n) b

theorem scroll_up_step_bound (b : TerminalBuffer)
    (h : b.scrollback.length ≤ b.max_scrollback) :
    b.scroll_up_step.scrollback.length ≤ b.scroll_up_step.max_scrollback := by
  unfold TerminalBuffer.scroll_up_step
  dsimp only
  split
  · dsimp only
    split
    · simp only [List.length_drop, List.length_append, List.length_cons, List.length_nil]
      omega
    · rename_i hle
      simp only [gt_iff_lt, not_lt, List.length_append, List.length_cons,
        List.length_nil] at hle ⊢
      omega
  · exact h

theorem scroll_up_bound (b : TerminalBuffer) (n : Nat)
    (h : b.scrollback.length ≤ b.max_scrollback) :
    (b.scroll_up n).scrollback.length ≤ (b.scroll_up n).max_scrollback := by
  induction n generalizing b with
  | zero => exact h
  | succ m ih => exact ih b.scroll_up_step (scroll_up_step_bound b h)

theorem scroll_up_full_fifo (b : TerminalBuffer)
    (hfull : b.scrollback.length = b.max_scrollback)
    (htop : b.scroll_region.1 < b.lines.length) :
    (b.scroll_up 1).scrollback =
      (b.scrollback ++ [b.lines.getD b.scroll_region.1 (TerminalLine.new 0)]).drop 1 := by
  show (TerminalBuffer.scroll_up_step b).scrollback = _
  unfold TerminalBuffer.scroll_up_step
  rw [dif_pos htop]
  dsimp only
  rw [if_pos (by simp only [List.length_append, List.length_cons, List.length_nil]; omega)]
  rw [List.getD_eq_getElem _ _ htop]
  rfl

/-- C8: for every sequence of `scroll_up` operations with arbitrary counts,
starting from any buffer whose scrollback is within its capacity, the
scrollback length never exceeds the configured maximum; and once the
scrollback sits exactly at capacity, the next archived line evicts the oldest
scrollback entry first (position 0 of the pushed sequence is dropped: FIFO). -/
theorem c8_scrollback_bound_fifo (b : TerminalBuffer) (ns : List Nat)
    (hcap : b.scrollback.length ≤ b.max_scrollback) :
    (scroll_ups b ns).scrollback.length ≤ (scroll_ups b ns).max_scrollback ∧
    (b.scrollback.length = b.max_scrollback → b.scroll_region.1 < b.lines.length →
      (b.scroll_up 1).scrollback =
        (b.scrollback ++
          [b.lines.getD b.scroll_region.1 (TerminalLine.new 0)]).drop 1) := by
  constructor
  · induction ns generalizing b with
    | nil => exact hcap
    | cons n ns ih => exact ih (b.scroll_up n) (scroll_up_bound b n hcap)
  · intro hfull htop
    exact scroll_up_full_fifo b hfull htop

/-- A 1×1 buffer whose scrollback already sits at a capacity of one line. -/
def c8_full_buffer : TerminalBuffer :=
  { TerminalBuffer.new 1 1 with max_scrollback := 1, scrollback := [TerminalLine.new 1] }

/-- Witness for C8 on a buffer at full scrollback capacity, scrolling twice. -/
theorem c8_scrollback_bound_fifo_witness :
    (scroll_ups c8_full_buffer [2]).scrollback.length ≤
      (scroll_ups c8_full_buffer [2]).max_scrollback ∧
    (c8_full_buffer.scrollback.length = c8_full_buffer.max_scrollback →
      c8_full_buffer.scroll_region.1 < c8_full_buffer.lines.length →
      (c8_full_buffer.scroll_up 1).scrollback =
        (c8_full_buffer.scrollback ++
          [c8_full_buffer.lines.getD c8_full_buffer.scroll_region.1
            (TerminalLine.new 0)]).drop 1) :=
  c8_scrollback_bound_fifo c8_full_buffer [2] (by decide)

/-- Write a whole list of printable characters, left to right. -/
def TerminalBuffer.put_list (b : TerminalBuffer) (cs : List Char) : TerminalBuffer :=
  cs.foldl (fun acc c => acc.put_char c) b

theorem put_char_no_wrap_fields (b : TerminalBuffer) (c : Char)
    (hcols : b.size.1 < 65536) (hcol : b.cursor.col < b.size.1) :
    (b.put_char c).cursor.row = b.cursor.row ∧
    (b.put_char c).cursor.col = b.cursor.col + 1 ∧
    (b.put_char c).scrollback = b.scrollback ∧
    (b.put_char c).lines.length = b.lines.length ∧
    (b.put_char c).size = b.size ∧
    (b.put_char c).scroll_region = b.scroll_region ∧
    (b.put_char c).max_scrollback = b.max_scrollback ∧
    (b.put_char c).current_style = b.current_style := by
  unfold TerminalBuffer.put_char TerminalBuffer.put_wrap TerminalBuffer.put_at
  rw [if_neg (by omega)]
  by_cases hr : b.cursor.row < b.lines.length
  · rw [dif_pos hr]
    dsimp only
    exact ⟨rfl, u16_eq_of_lt (by omega), rfl, by simp, rfl, rfl, rfl, rfl⟩
  · rw [dif_neg hr]
    dsimp only
    exact ⟨rfl, u16_eq_of_lt (by omega), rfl, rfl, rfl, rfl, rfl, rfl⟩

theorem put_list_fields (cs : List Char) (b : TerminalBuffer)
    (hcols : b.size.1 < 65536)
    (hfit : b.cursor.col + cs.length ≤ b.size.1) :
    (b.put_list cs).cursor.row = b.cursor.row ∧
    (b.put_list cs).cursor.col = b.cursor.col + cs.length ∧
    (b.put_list cs).scrollback = b.scrollback ∧
    (b.put_list cs).lines.length = b.lines.length ∧
    (b.put_list cs).size = b.size ∧
    (b.put_list cs).scroll_region = b.scroll_region ∧
    (b.put_list cs).max_scrollback = b.max_scrollback ∧
    (b.put_list cs).current_style = b.current_style := by
  induction cs generalizing b with
  | nil =>
    refine ⟨rfl, ?_, rfl, rfl, rfl, rfl, rfl, rfl⟩
    simp [TerminalBuffer.put_list]
  | cons c cs ih =>
    have hclen : (c :: cs).length = cs.length + 1 := List.length_cons c cs
    have hcol : b.cursor.col < b.size.1 := by omega
    obtain ⟨f1, f2, f3, f4, f5, f6, f7, f8⟩ := put_char_no_wrap_fields b c hcols hcol
    have hcols2 : (b.put_char c).size.1 < 65536 := by rw [f5]; exact hcols
    have hfit2 : (b.put_char c).cursor.col + cs.length ≤ (b.put_char c).size.1 := by
      rw [f2, f5]
      omega
    obtain ⟨g1, g2, g3, g4, g5, g6, g7, g8⟩ := ih (b.put_char c) hcols2 hfit2
    have hpl : b.put_list (c :: cs) = (b.put_char c).put_list cs := rfl
    rw [hpl]
    refine ⟨g1.trans f1, ?_, g3.trans f3, g4.trans f4, g5.trans f5, g6.trans f6,
      g7.trans f7, g8.trans f8⟩
    rw [g2, f2, hclen]
    omega

theorem scroll_up_step_size (b : TerminalBuffer) : b.scroll_up_step.size = b.size := by
  unfold TerminalBuffer.scroll_up_step
  dsimp only
  split <;> rfl

theorem scroll_up_step_style (b : TerminalBuffer) :
    b.scroll_up_step.current_style = b.current_style := by
  unfold TerminalBuffer.scroll_up_step
  dsimp only
  split <;> rfl

theorem put_wrap_bottom_eq (b : TerminalBuffer)
    (hcol : b.cursor.col ≥ b.size.1)
    (hrowtop : b.cursor.row = b.size.2 - 1)
    (hr1 : 1 ≤ b.size.2) (hr2 : b.size.2 < 65536) :
    b.put_wrap = { b.scroll_up_step with cursor := (⟨b.size.2 - 1, 0⟩ : CursorPos) } := by
  unfold TerminalBuffer.put_wrap
  rw [if_pos hcol]
  dsimp only
  have h1 : b.cursor.row + 1 = b.size.2 := by omega
  rw [h1, u16_eq_of_lt hr2]
  rw [if_pos (le_refl _)]
  have h2 : TerminalBuffer.scroll_up { b with cursor := (⟨b.size.2, 0⟩ : CursorPos) } 1 =
      { b.scroll_up_step with cursor := (⟨b.size.2, 0⟩ : CursorPos) } := by
    show TerminalBuffer.scroll_up_step { b with cursor := (⟨b.size.2, 0⟩ : CursorPos) } = _
    exact scroll_up_step_cursor_indep b _
  rw [h2]
  dsimp only
  rw [scroll_up_step_size, u16sub_one hr1 hr2]

theorem scroll_up_step_bottom_content (b : TerminalBuffer)
    (hreg : b.scroll_region = (0, b.size.2 - 1))
    (hlen : b.lines.length = b.size.2)
    (hr1 : 1 ≤ b.size.2)
    (hsb : b.scrollback.length < b.max_scrollback) :
    b.scroll_up_step.lines = b.lines.tail ++ [TerminalLine.new b.size.1] ∧
    b.scroll_up_step.scrollback.length = b.scrollback.length + 1 := by
  have h0 : b.scroll_region.1 = 0 := by rw [hreg]
  have htop : b.scroll_region.1 < b.lines.length := by
    rw [h0]
    omega
  unfold TerminalBuffer.scroll_up_step
  rw [dif_pos htop]
  dsimp only
  constructor
  · have hb2 : b.scroll_region.2 = b.size.2 - 1 := by rw [hreg]
    rw [h0, hb2, List.eraseIdx_zero]
    have hmin : min (b.size.2 - 1) b.lines.tail.length = b.lines.tail.length := by
      rw [List.length_tail, hlen]
      omega
    rw [hmin, List.insertIdx_length_self]
  · rw [if_neg (by simp only [List.length_append, List.length_cons, List.length_nil]; omega)]
    simp only [List.length_append, List.length_cons, List.length_nil]

theorem put_char_wrap_scroll (b : TerminalBuffer) (c : Char)
    (hcol : b.cursor.col ≥ b.size.1)
    (hrowtop : b.cursor.row = b.size.2 - 1)
    (hc1 : 1 ≤ b.size.1) (hc2 : b.size.1 < 65536)
    (hr1 : 1 ≤ b.size.2) (hr2 : b.size.2 < 65536)
    (hreg : b.scroll_region = (0, b.size.2 - 1))
    (hlen : b.lines.length = b.size.2)
    (hsb : b.scrollback.length < b.max_scrollback) :
    (b.put_char c).cursor.row = b.size.2 - 1 ∧
    (b.put_char c).cursor.col = 1 ∧
    (b.put_char c).scrollback.length = b.scrollback.length + 1 ∧
    ((b.put_char c).lines.getD (b.size.2 - 1) (TerminalLine.new 0)).chars.getD 0
        StyledChar.default = { b.current_style with c := c } := by
  obtain ⟨hlines, hsblen⟩ := scroll_up_step_bottom_content b hreg hlen hr1 hsb
  have hpw := put_wrap_bottom_eq b hcol hrowtop hr1 hr2
  have htail : b.lines.tail.length = b.size.2 - 1 := by
    rw [List.length_tail, hlen]
  have hlenpw : b.scroll_up_step.lines.length = b.size.2 := by
    rw [hlines]
    simp only [List.length_append, List.length_cons, List.length_nil, htail]
    omega
  unfold TerminalBuffer.put_char TerminalBuffer.put_at
  rw [hpw]
  dsimp only
  have hrowlt : b.size.2 - 1 < b.scroll_up_step.lines.length := by omega
  rw [dif_pos hrowlt]
  dsimp only
  have hget : b.scroll_up_step.lines.get ⟨b.size.2 - 1, hrowlt⟩ =
      TerminalLine.new b.size.1 := by
    have hidx : b.size.2 - 1 < (b.lines.tail ++ [TerminalLine.new b.size.1]).length := by
      simp only [List.length_append, List.length_cons, List.length_nil, htail]
      omega
    have h1 : b.scroll_up_step.lines.get ⟨b.size.2 - 1, hrowlt⟩ =
        b.scroll_up_step.lines.getD (b.size.2 - 1) (TerminalLine.new 0) := by
      rw [List.getD_eq_getElem _ _ hrowlt]
      rfl
    rw [h1, hlines, List.getD_eq_getElem _ _ hidx,
      List.getElem_append_right (by omega)]
    simp [htail]
  have hstyle : b.scroll_up_step.current_style = b.current_style := scroll_up_step_style b
  refine ⟨rfl, u16_eq_of_lt (by omega), ?_, ?_⟩
  · exact hsblen
  · have hrow : (b.scroll_up_step.lines.set (b.size.2 - 1)
        ((b.scroll_up_step.lines.get ⟨b.size.2 - 1, hrowlt⟩).set 0
          { b.scroll_up_step.current_style with c := c })).getD
        (b.size.2 - 1) (TerminalLine.new 0) =
        (b.scroll_up_step.lines.get ⟨b.size.2 - 1, hrowlt⟩).set 0
          { b.scroll_up_step.current_style with c := c } := by
      rw [List.getD_eq_getElem _ _ (by rw [List.length_set]; omega)]
      rw [List.getElem_set_self]
    rw [hrow, hget, hstyle]
    unfold TerminalLine.set
    rw [if_pos (by rw [TerminalLine.length_new]; omega)]
    dsimp only
    rw [List.getD_eq_getElem _ _ (by simp [TerminalLine.new]; omega)]
    rw [List.getElem_set_self]

/-- Counterexample to C2 as stated: on a 1×2 buffer with the scroll region
restricted to row 0 and the cursor in the pending-wrap state on row 0 — the
bottom row of the active region — the next printable character wraps to row 1
without any scroll (the scrollback stays empty and the cursor leaves the
region), instead of scrolling the region up by one. -/
theorem c2_region_bottom_no_scroll :
    (((TerminalBuffer.new 1 2).set_scroll_region 0 0).put_char 'a').cursor.row = 0 ∧
    (((TerminalBuffer.new 1 2).set_scroll_region 0 0).put_char 'a').cursor.col = 1 ∧
    (((TerminalBuffer.new 1 2).set_scroll_region 0 0).put_char 'a').scroll_region.2 = 0 ∧
    ((((TerminalBuffer.new 1 2).set_scroll_region 0 0).put_char 'a').put_char
      'b').scrollback = [] ∧
    ((((TerminalBuffer.new 1 2).set_scroll_region 0 0).put_char 'a').put_char
      'b').cursor.row = 1 :=
  ⟨rfl, rfl, rfl, rfl, rfl⟩

/-- C2 (amended): a printable character is placed at the cursor with the
pending style and the column advances; a character arriving in the
pending-wrap state wraps to column 0 of the next row, and the buffer is
scrolled up by one only when the cursor sits on the bottom row of the screen
(`rows − 1`), not of the scroll region; consequently, on a fresh buffer,
writing `cols + 1` printable characters starting at column 0 of the empty
bottom row triggers exactly one scroll event (the scrollback grows from 0 to
1) and leaves the overflow character at column 0 of the new bottom row with
the cursor at column 1. -/
theorem c2_wrap_and_overflow_scroll (cols rows : Nat) (h1 : 1 ≤ cols)
    (h2 : cols < 65536) (h3 : 1 ≤ rows) (h4 : rows < 65536)
    (ys : List Char) (hys : ys.length = cols) (z : Char) :
    ((((TerminalBuffer.new cols rows).set_cursor 0 (rows - 1)).put_list ys).put_char
        z).scrollback.length = 1 ∧
    ((((TerminalBuffer.new cols rows).set_cursor 0 (rows - 1)).put_list ys).put_char
        z).cursor.row = rows - 1 ∧
    ((((TerminalBuffer.new cols rows).set_cursor 0 (rows - 1)).put_list ys).put_char
        z).cursor.col = 1 ∧
    ((((((TerminalBuffer.new cols rows).set_cursor 0 (rows - 1)).put_list ys).put_char
        z).lines.getD (rows - 1) (TerminalLine.new 0)).chars.getD 0
        StyledChar.default).c = z := by
  set s0 : TerminalBuffer := (TerminalBuffer.new cols rows).set_cursor 0 (rows - 1) with hs0
  have e_col : s0.cursor.col = 0 := by
    rw [hs0]
    simp [TerminalBuffer.set_cursor, TerminalBuffer.new]
  have e_row : s0.cursor.row = rows - 1 := by
    rw [hs0]
    simp [TerminalBuffer.set_cursor, TerminalBuffer.new]
  have e_size : s0.size = (cols, rows) := rfl
  have e_sb : s0.scrollback = [] := rfl
  have e_reg : s0.scroll_region = (0, rows - 1) := rfl
  have e_max : s0.max_scrollback = 10000 := rfl
  have e_len : s0.lines.length = rows := by
    show (List.replicate rows (TerminalLine.new cols)).length = rows
    exact List.length_replicate rows _
  have hcols0 : s0.size.1 < 65536 := by rw [e_size]; exact h2
  have hfit : s0.cursor.col + ys.length ≤ s0.size.1 := by
    rw [e_col, e_size, hys]
    omega
  obtain ⟨g1, g2, g3, g4, g5, g6, g7, g8⟩ := put_list_fields ys s0 hcols0 hfit
  set s1 : TerminalBuffer := s0.put_list ys with hs1
  have hcol : s1.cursor.col ≥ s1.size.1 := by
    rw [g2, g5, e_col, e_size, hys]
    omega
  have hrowtop : s1.cursor.row = s1.size.2 - 1 := by
    rw [g1, g5, e_row, e_size]
  have hc1 : 1 ≤ s1.size.1 := by rw [g5, e_size]; exact h1
  have hc2 : s1.size.1 < 65536 := by rw [g5, e_size]; exact h2
  have hr1 : 1 ≤ s1.size.2 := by rw [g5, e_size]; exact h3
  have hr2 : s1.size.2 < 65536 := by rw [g5, e_size]; exact h4
  have hreg : s1.scroll_region = (0, s1.size.2 - 1) := by
    rw [g6, g5, e_reg, e_size]
  have hlen : s1.lines.length = s1.size.2 := by
    rw [g4, g5, e_len, e_size]
  have hsb : s1.scrollback.length < s1.max_scrollback := by
    rw [g3, g7, e_sb, e_max]
    simp
  obtain ⟨w1, w2, w3, w4⟩ := put_char_wrap_scroll s1 z hcol hrowtop hc1 hc2 hr1 hr2 hreg hlen hsb
  have hsz2 : s1.size.2 = rows := by rw [g5, e_size]
  refine ⟨?_, ?_, w2, ?_⟩
  · rw [w3, g3, e_sb]
    rfl
  · rw [w1, hsz2]
  · rw [hsz2] at w4
    rw [w4]

/-- Witness for C2 (amended): a 2×2 buffer receiving three characters on its
bottom row. -/
theorem c2_wrap_and_overflow_scroll_witness :
    ((((TerminalBuffer.new 2 2).set_cursor 0 (2 - 1)).put_list ['x', 'y']).put_char
        'z').scrollback.length = 1 ∧
    ((((TerminalBuffer.new 2 2).set_cursor 0 (2 - 1)).put_list ['x', 'y']).put_char
        'z').cursor.row = 2 - 1 ∧
    ((((TerminalBuffer.new 2 2).set_cursor 0 (2 - 1)).put_list ['x', 'y']).put_char
        'z').cursor.col = 1 ∧
    ((((((TerminalBuffer.new 2 2).set_cursor 0 (2 - 1)).put_list ['x', 'y']).put_char
        'z').lines.getD (2 - 1) (TerminalLine.new 0)).chars.getD 0
        StyledChar.default).c = 'z' :=
  c2_wrap_and_overflow_scroll 2 2 (by decide) (by decide) (by decide) (by decide)
    ['x', 'y'] (by decide) 'z'
